import Mathlib

/-!
Verification of the OpenClaw memory subsystem specification against a shallow
embedding of the TypeScript source (src/src/memory/...). Each definition below
translates one source function; theorems settle the spec claims about them.
-/

/-! ## Batch orchestrator constants (src/src/memory/manager-batch.ts) -/

def EMBEDDING_BATCH_MAX_TOKENS : Nat := 8000
def EMBEDDING_APPROX_CHARS_PER_TOKEN : Nat := 1
def EMBEDDING_RETRY_MAX_ATTEMPTS : Nat := 3
def EMBEDDING_RETRY_BASE_DELAY_MS : ℚ := 500
def EMBEDDING_RETRY_MAX_DELAY_MS : ℚ := 8000
def BATCH_FAILURE_LIMIT : Nat := 2

/-- A chunk of a memory document; only the fields the batch orchestrator reads. -/
structure MemoryChunk where
  text : String
  startLine : Nat
  endLine : Nat
  hash : String
deriving Repr, DecidableEq

/-- Token estimate for one chunk: `Math.ceil(chunk.text.length / EMBEDDING_APPROX_CHARS_PER_TOKEN)`. -/
def estimateTokens (c : MemoryChunk) : Nat :=
  Nat.ceil ((c.text.length : ℚ) / (EMBEDDING_APPROX_CHARS_PER_TOKEN : ℚ))

/-- Loop body of `buildEmbeddingBatches` (manager-batch.ts lines 343-369), with the
flush-then-continue control flow of one loop iteration written as one recursive step.
`current`/`currentTokens` carry the open batch and its token sum. -/
def buildBatchesGo : List MemoryChunk → List MemoryChunk → Nat → List (List MemoryChunk)
  | [], current, _ => if current = [] then [] else [current]
  | c :: rest, current, currentTokens =>
    let estimate := estimateTokens c
    if current ≠ [] ∧ currentTokens + estimate > EMBEDDING_BATCH_MAX_TOKENS then
      -- wouldExceed: push `current`, reset, then the same iteration handles `c`
      if estimate > EMBEDDING_BATCH_MAX_TOKENS then
        current :: [c] :: buildBatchesGo rest [] 0
      else
        current :: buildBatchesGo rest [c] estimate
    else if current = [] ∧ estimate > EMBEDDING_BATCH_MAX_TOKENS then
      [c] :: buildBatchesGo rest [] 0
    else
      buildBatchesGo rest (current ++ [c]) (currentTokens + estimate)

/-- `buildEmbeddingBatches` (manager-batch.ts lines 343-369). -/
def buildEmbeddingBatches (chunks : List MemoryChunk) : List (List MemoryChunk) :=
  buildBatchesGo chunks [] 0

/-- Summed token estimate of a batch. -/
def batchTokens (b : List MemoryChunk) : Nat :=
  (b.map estimateTokens).sum

/-! ## Batch failure policy (manager-batch.ts, EmbeddingBatchManager) -/

/-- The mutable state of `EmbeddingBatchManager` together with the
`ctx.batchConfig.enabled` flag it guards (the manager mutates that flag in place). -/
structure BatchState where
  batchFailureCount : Nat
  batchEnabled : Bool
  batchFailureLastError : Option String
  batchFailureLastProvider : Option String
deriving Repr, DecidableEq

/-- Whether the first list is an initial segment of the second. -/
def leadsList : List Char → List Char → Bool
  | [], _ => true
  | _ :: _, [] => false
  | a :: as_, b :: bs => a == b && leadsList as_ bs

/-- Substring test on character lists (`String.includes` / a literal regex
alternative). -/
def containsSub (needle : List Char) : List Char → Bool
  | [] => needle.isEmpty
  | c :: rest => leadsList needle (c :: rest) || containsSub needle rest

/-- JS whitespace for `String.prototype.trim` (the characters that occur here). -/
def isWS (c : Char) : Bool :=
  c == ' ' || c == '\t' || c == '\n' || c == '\r'

/-- `s.trim()` modelled on the character list. -/
def trimString (s : String) : String :=
  String.mk (((s.data.dropWhile isWS).reverse.dropWhile isWS).reverse)

/-- Split a character list on a separator character (like `String.split`). -/
def splitOnChar (sep : Char) : List Char → List (List Char)
  | [] => [[]]
  | c :: rest =>
    match splitOnChar sep rest with
    | [] => [[c]]
    | h :: t => if c == sep then [] :: h :: t else (c :: h) :: t

/-- `s.startsWith(pre)` on character lists. -/
def strStartsWith (s pre : String) : Bool :=
  leadsList pre.data s.data

/-- `s.endsWith(suffix)` on character lists. -/
def strEndsWith (s suffix : String) : Bool :=
  leadsList suffix.data.reverse s.data.reverse

/-- Lower-cased character list of a string (`s.toLowerCase()`), kept on `List Char`
so that concrete instances evaluate. -/
def toLowerCL (s : String) : List Char :=
  s.data.map Char.toLower

/-- Case-insensitive substring test used to model the JS regexes' literal alternatives. -/
def containsCI (hay needle : String) : Bool :=
  containsSub (toLowerCL needle) (toLowerCL hay)

/-- `/asyncBatchEmbedContent not available/i.test(message)` (manager-batch.ts line 391). -/
def isEndpointUnavailableMessage (m : String) : Bool :=
  containsCI m "asyncBatchEmbedContent not available"

/-- `recordBatchFailure` (manager-batch.ts lines 430-454). Returns the new state and
the `{ disabled, count }` record. -/
def recordBatchFailure (st : BatchState) (provider message : String)
    (attempts : Option Nat) (forceDisable : Bool) : BatchState × Bool × Nat :=
  if st.batchEnabled = false then
    (st, true, st.batchFailureCount)
  else
    let increment := if forceDisable then BATCH_FAILURE_LIMIT else max 1 (attempts.getD 1)
    let count := st.batchFailureCount + increment
    let disabled := forceDisable || decide (count ≥ BATCH_FAILURE_LIMIT)
    ({ batchFailureCount := count,
       batchEnabled := if disabled then false else st.batchEnabled,
       batchFailureLastError := some message,
       batchFailureLastProvider := some provider }, disabled, count)

/-- `resetBatchFailureCount` (manager-batch.ts lines 470-479). -/
def resetBatchFailureCount (st : BatchState) : BatchState :=
  { st with batchFailureCount := 0,
            batchFailureLastError := none,
            batchFailureLastProvider := none }

/-- `/timed out|timeout/i` (manager-batch.ts line 417). -/
def isTimeoutMessage (m : String) : Bool :=
  containsCI m "timed out" || containsCI m "timeout"

/-- Outcome oracle for one provider-side batch submission: the error message of the
first `run()` (none = success), and of the retry `run()` used when the first error
is a timeout. -/
structure BatchRunOutcome where
  firstError : Option String
  secondError : Option String
deriving Repr, DecidableEq

/-- `runBatchWithTimeoutRetry` (manager-batch.ts lines 409-428): retry once on a
timeout message, tagging the retry error with `batchAttempts = 2`. The error value
is `(message, batchAttempts ?? 1)`. -/
def runBatchWithTimeoutRetry (o : BatchRunOutcome) : Except (String × Nat) Unit :=
  match o.firstError with
  | none => .ok ()
  | some m =>
    if isTimeoutMessage m then
      match o.secondError with
      | none => .ok ()
      | some m2 => .error (m2, 2)
    else
      .error (m, 1)

/-- `runBatchWithFallback` (manager-batch.ts lines 371-407). Returns
(new state, whether a batch job was submitted, whether the per-request fallback ran). -/
def runBatchWithFallback (st : BatchState) (provider : String) (o : BatchRunOutcome) :
    BatchState × Bool × Bool :=
  if st.batchEnabled = false then
    (st, false, true)
  else
    match runBatchWithTimeoutRetry o with
    | .ok _ => (resetBatchFailureCount st, true, false)
    | .error (msg, attempts) =>
      let forceDisable := isEndpointUnavailableMessage msg
      let r := recordBatchFailure st provider msg (some attempts) forceDisable
      (r.1, true, true)

/-- `resolveBatchConfig().enabled` (manager.ts lines 1072-1084): the settings'
`remote.batch.enabled` flag, and an initialised client matching the current
provider id (`openAi` for "openai", `gemini` for "gemini"). -/
def resolveBatchConfigEnabled (settingsBatchEnabled openAi gemini : Bool)
    (providerId : String) : Bool :=
  settingsBatchEnabled && ((openAi && providerId == "openai")
    || (gemini && providerId == "gemini"))

/-- An event the manager's batch state reacts to: an embedding call in batch mode
(`runBatchWithFallback`), or a successful fallback-provider switch, whose final
step reassigns `this.batch = this.resolveBatchConfig()` (manager.ts line 1127)
with the new provider id and clients. -/
inductive ManagerBatchEvent where
  | call (provider : String) (o : BatchRunOutcome)
  | fallbackSwitch (settingsBatchEnabled openAi gemini : Bool) (providerId : String)
deriving Repr, DecidableEq

/-- Whether an event is a plain embedding call (no fallback switch). -/
def ManagerBatchEvent.isCall : ManagerBatchEvent → Bool
  | .call _ _ => true
  | .fallbackSwitch _ _ _ _ => false

/-- One event's effect on the batch state; the Bool records whether the event
submitted a batch job. A fallback switch replaces the `this.batch` object, so the
`enabled` flag is recomputed from the settings while the failure counter (a field
of the batch manager, untouched by `activateFallbackProvider`) is preserved. -/
def managerBatchStep (st : BatchState) : ManagerBatchEvent → BatchState × Bool
  | .call provider o =>
    let r := runBatchWithFallback st provider o
    (r.1, r.2.1)
  | .fallbackSwitch sbe oa g pid =>
    ({ st with batchEnabled := resolveBatchConfigEnabled sbe oa g pid }, false)

/-- Run a sequence of events; returns the final state and the list of
"submitted a batch job" flags, in order. -/
def runManagerBatchSequence (st : BatchState) :
    List ManagerBatchEvent → BatchState × List Bool
  | [] => (st, [])
  | e :: rest =>
    let r := managerBatchStep st e
    let tail := runManagerBatchSequence r.1 rest
    (tail.1, r.2 :: tail.2)

/-! ## Per-call retry (manager-batch.ts, embedBatchWithRetry) -/

/-- `'5' followed by two digits` — the `5\d\d` alternative of the retry regex. -/
def has5dd : List Char → Bool
  | [] => false
  | c :: rest =>
    (match rest with
     | d1 :: d2 :: _ => c == '5' && d1.isDigit && d2.isDigit
     | _ => false) || has5dd rest

/-- `isRetryableEmbeddingError` (manager-batch.ts lines 481-485):
`/(rate[_ ]limit|too many requests|429|resource has been exhausted|5\d\d|cloudflare)/i`. -/
def isRetryableEmbeddingError (m : String) : Bool :=
  let l := toLowerCL m
  containsSub "rate_limit".data l ||
  containsSub "rate limit".data l ||
  containsSub "too many requests".data l ||
  containsSub "429".data l ||
  containsSub "resource has been exhausted".data l ||
  has5dd l ||
  containsSub "cloudflare".data l

/-- An embedding result (list of vectors); only its identity matters here. -/
def EmbRows : Type := List (List ℚ)

/-- The `while` loop of `embedBatchWithRetry` (manager-batch.ts lines 304-341).
`oracle k` is the outcome of the (k+1)-th `provider.embedBatch` call; `jitter k` is
the `Math.random() * 0.2` sample before the k-th retry. Returns the propagated
result, the number of provider calls made so far (the loop makes exactly one call
per iteration, so this equals the final `attempt + 1`), and the backoff waits. -/
def embedRetryGo (oracle : Nat → Except String EmbRows) (jitter : Nat → ℚ)
    (attempt : Nat) (delayMs : ℚ) : Except String EmbRows × Nat × List ℚ :=
  match oracle attempt with
  | .ok v => (.ok v, attempt + 1, [])
  | .error m =>
    if isRetryableEmbeddingError m = false ∨ attempt ≥ EMBEDDING_RETRY_MAX_ATTEMPTS then
      (.error m, attempt + 1, [])
    else
      let waitMs : ℚ :=
        min EMBEDDING_RETRY_MAX_DELAY_MS ((round (delayMs * (1 + jitter attempt)) : ℤ) : ℚ)
      let rest := embedRetryGo oracle jitter (attempt + 1) (delayMs * 2)
      (rest.1, rest.2.1, waitMs :: rest.2.2)
termination_by EMBEDDING_RETRY_MAX_ATTEMPTS + 1 - attempt
decreasing_by
  rename_i h
  rw [not_or] at h
  omega

/-- `embedBatchWithRetry` (manager-batch.ts lines 304-341). -/
def embedBatchWithRetry (texts : List String) (oracle : Nat → Except String EmbRows)
    (jitter : Nat → ℚ) : Except String EmbRows × Nat × List ℚ :=
  if texts = [] then (.ok [], 0, [])
  else embedRetryGo oracle jitter 0 EMBEDDING_RETRY_BASE_DELAY_MS

/-! ## Atomic swap of the index files (manager.ts, swapIndexFiles / moveIndexFiles) -/

/-- The three path bases taking part in the swap: the primary db path, the
temporary store path `<dbPath>.tmp-<uuid>`, and the backup path
`<dbPath>.backup-<uuid>`. Fresh uuids make the nine full names distinct. -/
inductive FileRole where
  | primary | temp | backup
deriving Repr, DecidableEq

/-- The suffixes `["", "-wal", "-shm"]` moved in lockstep. -/
inductive FileSuffix where
  | db | wal | shm
deriving Repr, DecidableEq

/-- File system restricted to the nine names the swap touches; values are file contents. -/
def SwapFS : Type := FileRole → FileSuffix → Option Nat

/-- A fault oracle: which `fs.rename(src, dst)` calls fail with a non-ENOENT error. -/
def RenameFaults : Type := FileRole × FileSuffix → FileRole × FileSuffix → Bool

/-- One `fs.rename` as used by `moveIndexFiles` (manager.ts lines 803-816): a missing
source raises ENOENT which the caller swallows (modelled as a no-op); any other
injected fault propagates. The error value carries the file system left behind. -/
def renameFile (fs : SwapFS) (faults : RenameFaults) (src dst : FileRole × FileSuffix) :
    Except SwapFS SwapFS :=
  if faults src dst then .error fs
  else
    match fs src.1 src.2 with
    | none => .ok fs
    | some content =>
      .ok (fun r s =>
        if r = dst.1 ∧ s = dst.2 then some content
        else if r = src.1 ∧ s = src.2 then none
        else fs r s)

/-- The file system after one successful `fs.rename(src, dst)` (a no-op when the
source is absent). -/
def renamedFS (fs : SwapFS) (src dst : FileRole × FileSuffix) : SwapFS :=
  fun r s =>
    if r = dst.1 ∧ s = dst.2 then (fs src.1 src.2).or (fs dst.1 dst.2)
    else if r = src.1 ∧ s = src.2 then none
    else fs r s

/-- `moveIndexFiles` (manager.ts lines 803-816): rename the `["", "-wal", "-shm"]`
siblings in order, stopping at the first non-ENOENT failure. -/
def moveIndexFiles (fs : SwapFS) (faults : RenameFaults) (src dst : FileRole) :
    Except SwapFS SwapFS :=
  match renameFile fs faults (src, .db) (dst, .db) with
  | .error e => .error e
  | .ok fs1 =>
    match renameFile fs1 faults (src, .wal) (dst, .wal) with
    | .error e => .error e
    | .ok fs2 => renameFile fs2 faults (src, .shm) (dst, .shm)

/-- `removeIndexFiles` (manager.ts lines 818-821): `fs.rm(..., { force: true })` on
each sibling; never fails. -/
def removeIndexFiles (fs : SwapFS) (base : FileRole) : SwapFS :=
  fun r s => if r = base then none else fs r s

/-- `swapIndexFiles` (manager.ts lines 791-801): move primary to backup, move temp to
primary; on failure move backup back to primary and rethrow (the restore error wins
if the restore itself fails); on success remove the backup files. `Except.error`
carries the resulting file system of a failed swap. -/
def swapIndexFiles (fs : SwapFS) (faults : RenameFaults) : Except SwapFS SwapFS :=
  match moveIndexFiles fs faults .primary .backup with
  | .error e => .error e
  | .ok fs1 =>
    match moveIndexFiles fs1 faults .temp .primary with
    | .ok fs2 => .ok (removeIndexFiles fs2 .backup)
    | .error fs2 =>
      match moveIndexFiles fs2 faults .backup .primary with
      | .ok fs3 => .error fs3
      | .error fs3 => .error fs3


/-- The file system an `Except`-valued swap left behind, in either case. -/
def swapResultFS (r : Except SwapFS SwapFS) : SwapFS :=
  match r with
  | .ok v => v
  | .error e => e

/-- Pre-swap state for the mix counterexample: the primary store has only a db file
(no `-wal`/`-shm`, as after a clean close), the temporary store has all three. -/
def demoSwapFS : SwapFS :=
  fun r s =>
    match r, s with
    | .primary, .db => some 1
    | .temp, .db => some 2
    | .temp, .wal => some 3
    | .temp, .shm => some 4
    | _, _ => none

/-- Fault oracle failing exactly the `temp-shm → primary-shm` rename. -/
def demoFaultShm : RenameFaults :=
  fun src dst =>
    decide (src = (FileRole.temp, FileSuffix.shm) ∧ dst = (FileRole.primary, FileSuffix.shm))

/-- Pre-swap state for the witness: primary and temp both hold db and wal files. -/
def demoSwapOk : SwapFS :=
  fun r s =>
    match r, s with
    | .primary, .db => some 10
    | .primary, .wal => some 11
    | .temp, .db => some 20
    | .temp, .wal => some 21
    | _, _ => none

/-! ## Provider fallback on sync failure (manager.ts, runSync catch path) -/

/-- `shouldFallbackOnError` (manager.ts lines 1068-1070): `/embedding|embeddings|batch/i`. -/
def shouldFallbackOnError (message : String) : Bool :=
  containsCI message "embedding" || containsCI message "embeddings" ||
    containsCI message "batch"

def DEFAULT_OPENAI_EMBEDDING_MODEL : String := "text-embedding-3-small"
def DEFAULT_GEMINI_EMBEDDING_MODEL : String := "gemini-embedding-001"

/-- A constructed embedding provider, as far as the fallback path inspects it. -/
structure ProviderDesc where
  id : String
  model : String
deriving Repr, DecidableEq

/-- The manager state mutated by `activateFallbackProvider`. -/
structure MgrState where
  providerId : String
  providerModel : String
  providerKey : String
  fallbackFrom : Option String
  fallbackReason : Option String
deriving Repr, DecidableEq

/-- The per-agent settings the fallback path reads. -/
structure FallbackSettings where
  fallback : Option String
  model : String
deriving Repr, DecidableEq

/-- The model chosen for the fallback provider (manager.ts lines 1104-1109). -/
def fallbackModelFor (fallback : String) (settings : FallbackSettings) : String :=
  if fallback = "gemini" then DEFAULT_GEMINI_EMBEDDING_MODEL
  else if fallback = "openai" then DEFAULT_OPENAI_EMBEDDING_MODEL
  else settings.model

/-- `activateFallbackProvider` (manager.ts lines 1094-1130). `construct p m` stands
for `createEmbeddingProvider` invoked with provider `p` and model `m`; `keyOf`
stands for `computeProviderKey` on the freshly installed provider. Returns whether
the provider was switched, threading construction errors. -/
def activateFallbackProvider (st : MgrState) (settings : FallbackSettings)
    (reason : String) (construct : String → String → Except String ProviderDesc)
    (keyOf : ProviderDesc → String) : Except String (Bool × MgrState) :=
  match settings.fallback with
  | none => .ok (false, st)
  | some fallback =>
    if fallback = "" ∨ fallback = "none" ∨ fallback = st.providerId then .ok (false, st)
    else if st.fallbackFrom.isSome then .ok (false, st)
    else
      match construct fallback (fallbackModelFor fallback settings) with
      | .error e => .error e
      | .ok p =>
        .ok (true,
          { providerId := p.id,
            providerModel := p.model,
            providerKey := keyOf p,
            fallbackFrom := some st.providerId,
            fallbackReason := some reason })

/-- The re-entry request issued when fallback activates. -/
structure ReindexCall where
  reason : String
  force : Bool
deriving Repr, DecidableEq

/-- The `catch` block of `runSync` (manager.ts lines 1052-1065): on a sync error
`err`, activate the fallback provider when the message matches and re-enter as a
forced reindex with `reason: params?.reason ?? "fallback"`; otherwise rethrow.
`paramsReason` is `params?.reason`. -/
def runSyncCatch (st : MgrState) (settings : FallbackSettings)
    (paramsReason : Option String) (err : String)
    (construct : String → String → Except String ProviderDesc)
    (keyOf : ProviderDesc → String) : Except String (MgrState × ReindexCall) :=
  if shouldFallbackOnError err then
    match activateFallbackProvider st settings err construct keyOf with
    | .error e => .error e
    | .ok (activated, st') =>
      if activated then
        .ok (st', { reason := paramsReason.getD "fallback", force := true })
      else
        .error err
  else
    .error err

/-- The re-entry request of a `runSyncCatch` result, when any. -/
def reindexCallOf (r : Except String (MgrState × ReindexCall)) : Option ReindexCall :=
  match r with
  | .ok (_, c) => some c
  | .error _ => none

/-- Manager state for the C4 instances: openai active, no fallback applied yet. -/
def demoMgrState : MgrState :=
  { providerId := "openai", providerModel := "text-embedding-3-small",
    providerKey := "k0", fallbackFrom := none, fallbackReason := none }

/-- Settings for the C4 instances: local configured as fallback. -/
def demoFallbackSettings : FallbackSettings :=
  { fallback := some "local", model := "local-model" }

/-- Provider construction oracle that always succeeds. -/
def demoConstruct : String → String → Except String ProviderDesc :=
  fun p m => .ok { id := p, model := m }

/-- Provider-key recomputation stand-in. -/
def demoKeyOf : ProviderDesc → String :=
  fun p => String.append (String.append p.id ":") p.model

/-! ## Session delta tracker (manager-session-delta.ts, src/unnamed/part_003) -/

structure SessionDeltaState where
  lastSize : Int
  pendingBytes : Int
  pendingMessages : Int
deriving Repr, DecidableEq

structure SessionDeltaThresholds where
  deltaBytes : Int
  deltaMessages : Int
deriving Repr, DecidableEq

structure SessionDeltaResult where
  deltaBytes : Int
  deltaMessages : Int
  pendingBytes : Int
  pendingMessages : Int
deriving Repr, DecidableEq

/-- `updateSessionDelta` (part_003 lines 73-138) for one file. `stored` is
`deltas.get(sessionFile)`; `statSize` is the `fs.stat` result (`none` = stat threw);
`countNewlines start end` is the newline count in that byte range of the file.
Returns the result record handed to `processSessionDeltaBatch` and the state stored
back into `deltas` (unchanged when the function returns null early). -/
def updateSessionDelta (stored : Option SessionDeltaState)
    (thresholds : Option SessionDeltaThresholds) (statSize : Option Int)
    (countNewlines : Int → Int → Int) :
    Option SessionDeltaResult × Option SessionDeltaState :=
  match thresholds with
  | none => (none, stored)
  | some thresholds =>
    match statSize with
    | none => (none, stored)
    | some size =>
      let state := stored.getD { lastSize := 0, pendingBytes := 0, pendingMessages := 0 }
      let deltaBytes := max 0 (size - state.lastSize)
      if deltaBytes = 0 ∧ size = state.lastSize then
        (some { deltaBytes := thresholds.deltaBytes,
                deltaMessages := thresholds.deltaMessages,
                pendingBytes := state.pendingBytes,
                pendingMessages := state.pendingMessages }, some state)
      else if size < state.lastSize then
        let pendingBytes := state.pendingBytes + size
        let shouldCountMessages :=
          thresholds.deltaMessages > 0 ∧
            (thresholds.deltaBytes ≤ 0 ∨ pendingBytes < thresholds.deltaBytes)
        let pendingMessages :=
          if shouldCountMessages then state.pendingMessages + countNewlines 0 size
          else state.pendingMessages
        let state' : SessionDeltaState :=
          { lastSize := size, pendingBytes := pendingBytes, pendingMessages := pendingMessages }
        (some { deltaBytes := thresholds.deltaBytes,
                deltaMessages := thresholds.deltaMessages,
                pendingBytes := state'.pendingBytes,
                pendingMessages := state'.pendingMessages }, some state')
      else
        let pendingBytes := state.pendingBytes + deltaBytes
        let shouldCountMessages :=
          thresholds.deltaMessages > 0 ∧
            (thresholds.deltaBytes ≤ 0 ∨ pendingBytes < thresholds.deltaBytes)
        let pendingMessages :=
          if shouldCountMessages then
            state.pendingMessages + countNewlines state.lastSize size
          else state.pendingMessages
        let state' : SessionDeltaState :=
          { lastSize := size, pendingBytes := pendingBytes, pendingMessages := pendingMessages }
        (some { deltaBytes := thresholds.deltaBytes,
                deltaMessages := thresholds.deltaMessages,
                pendingBytes := state'.pendingBytes,
                pendingMessages := state'.pendingMessages }, some state')

/-- The per-file body of `processSessionDeltaBatch` (part_003 lines 26-67). After
`updateSessionDelta`, the threshold check decides dirtiness; the subsequent
threshold subtraction is applied to the returned `delta` record — a fresh object —
so the state kept in `deltas` is the one `updateSessionDelta` stored. Returns
(dirty, state stored in `deltas`, the mutated `delta` record if any). -/
def processOneSessionFile (stored : Option SessionDeltaState)
    (thresholds : Option SessionDeltaThresholds) (statSize : Option Int)
    (countNewlines : Int → Int → Int) :
    Bool × Option SessionDeltaState × Option SessionDeltaResult :=
  match updateSessionDelta stored thresholds statSize countNewlines with
  | (none, st') => (false, st', none)
  | (some delta, st') =>
    let bytesThreshold := delta.deltaBytes
    let messagesThreshold := delta.deltaMessages
    let bytesHit :=
      if bytesThreshold ≤ 0 then delta.pendingBytes > 0
      else delta.pendingBytes ≥ bytesThreshold
    let messagesHit :=
      if messagesThreshold ≤ 0 then delta.pendingMessages > 0
      else delta.pendingMessages ≥ messagesThreshold
    if ¬bytesHit ∧ ¬messagesHit then (false, st', some delta)
    else
      let delta' : SessionDeltaResult :=
        { delta with
          pendingBytes :=
            if bytesThreshold > 0 then max 0 (delta.pendingBytes - bytesThreshold) else 0,
          pendingMessages :=
            if messagesThreshold > 0 then max 0 (delta.pendingMessages - messagesThreshold)
            else 0 }
      (true, st', some delta')

/-! ## readFile path confinement (manager.ts lines 430-493) -/

/-- Collapse `.`/`..`/empty segments the way `path.resolve` does for an absolute
path (`..` above the root is dropped). -/
def normSegs (segs : List String) : List String :=
  segs.foldl
    (fun acc s =>
      if s = "" ∨ s = "." then acc
      else if s = ".." then acc.dropLast
      else acc ++ [s])
    []

/-- Split a raw path into `/`-separated segments. -/
def parseSegs (raw : String) : List String :=
  (splitOnChar '/' raw.data).map String.mk

/-- `path.isAbsolute(raw) ? path.resolve(raw) : path.resolve(workspaceDir, raw)`
(manager.ts lines 439-441), with absolute paths as normalised segment lists and
`ws` the workspace directory's segments. -/
def resolvePath (ws : List String) (raw : String) : List String :=
  if strStartsWith raw "/" then normSegs (parseSegs raw)
  else normSegs (ws ++ parseSegs raw)

/-- Drop the longest common prefix of two segment lists. -/
def stripCommon : List String → List String → List String × List String
  | a :: as_, b :: bs =>
    if a = b then stripCommon as_ bs else (a :: as_, b :: bs)
  | as_, bs => (as_, bs)

/-- `path.relative(workspaceDir, absPath)` on normalised absolute segment lists:
one `..` per remaining workspace segment, then the remaining target segments. -/
def relSegments (ws abs_ : List String) : List String :=
  let rest := stripCommon ws abs_
  rest.1.map (fun _ => "..") ++ rest.2

/-- The forward-slash joined relative path (manager.ts line 442). -/
def relString (ws abs_ : List String) : String :=
  String.intercalate "/" (relSegments ws abs_)

/-- Modelled from the spec: `isMemoryPath` lives in memory/internal.ts which is not
under src/. Glossary: a memory document is `MEMORY.md`, `memory.md`, or any file
under `memory/` (extra paths are handled separately by readFile itself). -/
def isMemoryPath (relPath : String) : Bool :=
  relPath == "MEMORY.md" || relPath == "memory.md" || strStartsWith relPath "memory/"

/-- `lstat` facts the confinement check reads. -/
structure StatInfo where
  isSymbolicLink : Bool
  isDirectory : Bool
  isFile : Bool
deriving Repr, DecidableEq

/-- File-system oracle: `lstat` (none = throws) and utf-8 `readFile` by absolute path. -/
structure FsModel where
  lstat : List String → Option StatInfo
  readFileUtf8 : List String → Option String

/-- Whether the last segment ends in `.md`; equals `absPath.endsWith(".md")` on the
joined path because `.md` contains no separator. -/
def endsWithMd (segs : List String) : Bool :=
  match segs.getLast? with
  | some s => strEndsWith s ".md"
  | none => false

/-- One iteration of the extra-path loop in `readFile` (manager.ts lines 452-472):
skip symlinked or unstattable entries; a directory allows the path itself or
anything under it; a file allows only itself when it is an `.md` file. -/
def extraPathAllows (fs : FsModel) (absSegs extra : List String) : Bool :=
  match fs.lstat extra with
  | none => false
  | some stat =>
    if stat.isSymbolicLink then false
    else if stat.isDirectory then absSegs == extra || decide (extra <+: absSegs)
    else if stat.isFile then absSegs == extra && endsWithMd absSegs
    else false

/-- The `absPath` of `readFile` (manager.ts lines 439-441), as segments. -/
def absSegsOf (ws : List String) (relPathParam : String) : List String :=
  resolvePath ws (trimString relPathParam)

/-- The `relPath` of `readFile` (manager.ts line 442). -/
def relOf (ws : List String) (relPathParam : String) : String :=
  relString ws (absSegsOf ws relPathParam)

/-- `inWorkspace` (manager.ts lines 443-444). -/
def inWorkspaceB (ws : List String) (relPathParam : String) : Bool :=
  relOf ws relPathParam != "" && !strStartsWith (relOf ws relPathParam) ".." &&
    !strStartsWith (relOf ws relPathParam) "/"

/-- `allowedWorkspace` (manager.ts line 445). -/
def allowedWorkspaceB (ws : List String) (relPathParam : String) : Bool :=
  inWorkspaceB ws relPathParam && isMemoryPath (relOf ws relPathParam)

/-- `allowedAdditional` after the extra-path loop (manager.ts lines 446-473). -/
def allowedAdditionalB (ws : List String) (extraPaths : List (List String))
    (fs : FsModel) (relPathParam : String) : Bool :=
  !allowedWorkspaceB ws relPathParam && !extraPaths.isEmpty &&
    extraPaths.any (extraPathAllows fs (absSegsOf ws relPathParam))

/-- `readFile` (manager.ts lines 430-493). `ws` is the workspace directory,
`extraPaths` the output of `normalizeExtraMemoryPaths` — modelled from the spec
(that helper lives in memory/internal.ts, not under src/) as the configured extra
paths resolved to absolute segment lists. `fromParam`/`linesParam` mirror the
optional JS numbers, `0` being falsy. Errors carry the thrown message. -/
def readFile (ws : List String) (extraPaths : List (List String)) (fs : FsModel)
    (relPathParam : String) (fromParam linesParam : Option Int) :
    Except String (String × String) :=
  if trimString relPathParam = "" then .error "path required"
  else
    let absSegs := absSegsOf ws relPathParam
    let rel := relOf ws relPathParam
    if !allowedWorkspaceB ws relPathParam &&
        !allowedAdditionalB ws extraPaths fs relPathParam then .error "path required"
    else if !endsWithMd absSegs then .error "path required"
    else
      match fs.lstat absSegs with
      | none => .error "lstat failed"
      | some stat =>
        if stat.isSymbolicLink || !stat.isFile then .error "path required"
        else
          match fs.readFileUtf8 absSegs with
          | none => .error "read failed"
          | some content =>
            let fromTruthy : Bool := match fromParam with | some n => n != 0 | none => false
            let linesTruthy : Bool := match linesParam with | some n => n != 0 | none => false
            if !fromTruthy && !linesTruthy then .ok (content, rel)
            else
              let lines := (splitOnChar '\n' content.data).map String.mk
              let start := max 1 (fromParam.getD 1)
              let count := max 1 (linesParam.getD (lines.length : Int))
              let slice := (lines.drop (start - 1).toNat).take count.toNat
              .ok (String.intercalate "\n" slice, rel)

/-- Workspace segments for the C5 instances. -/
def demoWs : List String := ["home", "u", "ws"]

/-- Content of the allowed memory note in the C5 instances. -/
def demoContent : String := "l1\nl2\nl3\nl4\nl5\nl6\nl7"

/-- File system for the C5 witness: a regular 7-line `memory/notes.md`. -/
def demoFs : FsModel :=
  { lstat := fun segs =>
      if segs = ["home", "u", "ws", "memory", "notes.md"] then
        some { isSymbolicLink := false, isDirectory := false, isFile := true }
      else none,
    readFileUtf8 := fun segs =>
      if segs = ["home", "u", "ws", "memory", "notes.md"] then some demoContent
      else none }

/-- File system with a symlink at `memory/notes.md`. -/
def demoFsSym : FsModel :=
  { lstat := fun segs =>
      if segs = ["home", "u", "ws", "memory", "notes.md"] then
        some { isSymbolicLink := true, isDirectory := false, isFile := true }
      else none,
    readFileUtf8 := fun _ => none }

/-! ## Query engine (manager.ts, search, lines 291-339) -/

/-- A search hit as the filter/cap stage sees it. -/
structure SearchHit where
  id : String
  score : ℚ
deriving Repr, DecidableEq

structure HybridSettings where
  enabled : Bool
  vectorWeight : ℚ
  textWeight : ℚ
  candidateMultiplier : ℚ
deriving Repr, DecidableEq

structure QuerySettings where
  minScore : ℚ
  maxResults : Nat
  hybrid : HybridSettings
deriving Repr, DecidableEq

structure SearchOpts where
  maxResults : Option Nat
  minScore : Option ℚ
deriving Repr, DecidableEq

/-- `Math.min(200, Math.max(1, Math.floor(maxResults * hybrid.candidateMultiplier)))`
(manager.ts lines 312-315). -/
def candidatesFor (maxResults : Nat) (candidateMultiplier : ℚ) : Nat :=
  (min 200 (max 1 ⌊(maxResults : ℚ) * candidateMultiplier⌋)).toNat

/-- What one `search` call did: the returned list, the candidate pool size it passed
to keyword/vector search (none when the trimmed query was empty and the call
returned early), and whether vector search ran. -/
structure SearchTrace where
  results : List SearchHit
  candidates : Option Nat
  vectorSearched : Bool
deriving Repr, DecidableEq

/-- `search` (manager.ts lines 291-339). The store reads are oracles:
`keywordSearch n` / `vectorSearch n` are `searchKeyword`/`searchVector` limited to
`n` candidates (the vector oracle closing over the embedded query), `embedQuery`
the embedded query vector, and `mergeHybrid` the hybrid merge from memory/hybrid.ts
(not under src/; its output only meets the final filter/cap here). The
fire-and-forget warm/sync and the catch-to-empty wrappers do not affect the value. -/
def search (settings : QuerySettings) (query : String) (opts : SearchOpts)
    (keywordSearch : Nat → List SearchHit) (embedQuery : List ℚ)
    (vectorSearch : Nat → List SearchHit)
    (mergeHybrid : List SearchHit → List SearchHit → ℚ → ℚ → List SearchHit) :
    SearchTrace :=
  let cleaned := trimString query
  if cleaned = "" then { results := [], candidates := none, vectorSearched := false }
  else
    let minScore := opts.minScore.getD settings.minScore
    let maxResults := opts.maxResults.getD settings.maxResults
    let hybrid := settings.hybrid
    let candidates := candidatesFor maxResults hybrid.candidateMultiplier
    let keywordResults := if hybrid.enabled then keywordSearch candidates else []
    let hasVector := embedQuery.any (fun v => v != 0)
    let vectorResults := if hasVector then vectorSearch candidates else []
    if !hybrid.enabled then
      { results := (vectorResults.filter (fun e => decide (minScore ≤ e.score))).take maxResults,
        candidates := some candidates,
        vectorSearched := hasVector }
    else
      let merged := mergeHybrid vectorResults keywordResults hybrid.vectorWeight hybrid.textWeight
      { results := (merged.filter (fun e => decide (minScore ≤ e.score))).take maxResults,
        candidates := some candidates,
        vectorSearched := hasVector }

/-- Query settings for the C7 instances: hybrid disabled, minScore 1/2, top 2. -/
def demoQuerySettings : QuerySettings :=
  { minScore := 1/2, maxResults := 2,
    hybrid := { enabled := false, vectorWeight := 6/10, textWeight := 4/10,
                candidateMultiplier := 4 } }

/-- Vector hits for the C7 instances. -/
def demoHits : List SearchHit :=
  [{ id := "a", score := 9/10 }, { id := "b", score := 3/10 }, { id := "c", score := 8/10 }]

/-- A concrete `search` run for the C7 witness. -/
def demoSearch : SearchTrace :=
  search demoQuerySettings "q" { maxResults := none, minScore := none }
    (fun _ => []) [1] (fun _ => demoHits) (fun a b _ _ => a ++ b)

/-! ## Provider factory, auto mode (providers/factory.ts in src/unnamed/part_002,
and canAutoSelectLocal in providers/local.ts) -/

/-- Case-insensitive `startsWith`, for `/^(hf:|https?:)/i` (needle given lower-case). -/
def startsWithCI (s needle : String) : Bool :=
  leadsList needle.data (toLowerCL s)

/-- `canAutoSelectLocal` (providers/local.ts lines 60-74). `resolveUserPath` and the
`statSync(..).isFile()` probe are oracles (`isFileAt` is false when stat throws). -/
def canAutoSelectLocal (localModelPath : Option String)
    (resolveUserPath : String → String) (isFileAt : String → Bool) : Bool :=
  match localModelPath with
  | none => false
  | some raw =>
    let modelPath := trimString raw
    if modelPath = "" then false
    else if startsWithCI modelPath "hf:" || startsWithCI modelPath "http:" ||
        startsWithCI modelPath "https:" then false
    else isFileAt (resolveUserPath modelPath)

/-- `isMissingApiKeyError` (factory.ts lines 10-13): the message contains
`"No API key found for provider"` (case-sensitive `String.includes`). -/
def isMissingApiKeyError (message : String) : Bool :=
  containsSub "No API key found for provider".data message.data

/-- The `for (const provider of ["openai", "gemini"])` loop plus the aggregation
tail of the auto branch (factory.ts lines 56-75), after the local attempt.
`localError` is the formatted local failure (when local was attempted and failed)
and `localAttempts` the providers attempted so far. -/
def autoRemainder (construct : String → Except String Unit)
    (localError : Option String) (localAttempts : List String) :
    Except String String × List String :=
  match construct "openai" with
  | .ok _ => (.ok "openai", localAttempts ++ ["openai"])
  | .error e1 =>
    if !isMissingApiKeyError e1 then (.error e1, localAttempts ++ ["openai"])
    else
      match construct "gemini" with
      | .ok _ => (.ok "gemini", localAttempts ++ ["openai", "gemini"])
      | .error e2 =>
        if !isMissingApiKeyError e2 then
          (.error e2, localAttempts ++ ["openai", "gemini"])
        else
          let details :=
            ([e1, e2] ++ (match localError with | some l => [l] | none => [])).filter
              (fun s => s != "")
          if details.isEmpty then
            (.error "No embeddings provider available.", localAttempts ++ ["openai", "gemini"])
          else
            (.error (String.intercalate "\n\n" details),
              localAttempts ++ ["openai", "gemini"])

/-- The `provider === "auto"` branch of `createEmbeddingProvider` (factory.ts lines
44-75). `construct p` is `createProvider(p)` with the error's formatted message;
`formatLocalSetupError` formats a failed local construction. Returns the selected
provider id (or the thrown message) together with the list of providers whose
construction was attempted, in order. -/
def createEmbeddingProviderAuto (localModelPath : Option String)
    (resolveUserPath : String → String) (isFileAt : String → Bool)
    (construct : String → Except String Unit)
    (formatLocalSetupError : String → String) :
    Except String String × List String :=
  let tryLocal := canAutoSelectLocal localModelPath resolveUserPath isFileAt
  if tryLocal then
    match construct "local" with
    | .ok _ => (.ok "local", ["local"])
    | .error e => autoRemainder construct (some (formatLocalSetupError e)) ["local"]
  else
    autoRemainder construct none []

/-! ## Local provider output post-processing (providers/local.ts lines 10-17) -/

/-- A raw model output component: a finite numeric value, or a non-finite one
(NaN / ±Infinity), which `Number.isFinite` rejects. -/
inductive EmbVal where
  | finite (q : ℚ)
  | nonfinite
deriving Repr, DecidableEq

/-- `Number.isFinite(value) ? value : 0`. -/
def sanitizeVal : EmbVal → ℚ
  | .finite q => q
  | .nonfinite => 0

/-- The `sanitized` array of `sanitizeAndNormalizeEmbedding`. -/
def sanitizeVec (v : List EmbVal) : List ℚ :=
  v.map sanitizeVal

/-- `sanitized.reduce((sum, value) => sum + value * value, 0)`. -/
def magnitudeSq (v : List ℚ) : ℚ :=
  (v.map (fun x => x * x)).sum

/-- Raw model output for the C10 instances: one non-finite component. -/
def demoEmb : List EmbVal := [.finite 3, .finite 4, .nonfinite]

/-- `sanitizeAndNormalizeEmbedding` (providers/local.ts lines 10-17), over the reals
since the source takes a square root. `embedQuery`/`embedBatch` of the local
provider (lines 103-121) return exactly this applied to each raw model vector. -/
noncomputable def sanitizeAndNormalizeEmbedding (vec : List EmbVal) : List ℝ :=
  if Real.sqrt ((magnitudeSq (sanitizeVec vec) : ℚ) : ℝ) < 1 / 10 ^ 10 then
    (sanitizeVec vec).map (fun q : ℚ => (q : ℝ))
  else
    (sanitizeVec vec).map
      (fun q : ℚ => (q : ℝ) / Real.sqrt ((magnitudeSq (sanitizeVec vec) : ℚ) : ℝ))

/-! # Theorems -/

/-- A tiny chunk used to exercise the batch builder on concrete input. -/
def demoChunk : MemoryChunk := { text := "abc", startLine := 1, endLine := 1, hash := "h1" }

/-! ## C9 — greedy batch packing -/

theorem estimateTokens_eq (c : MemoryChunk) : estimateTokens c = c.text.length := by
  simp [estimateTokens, EMBEDDING_APPROX_CHARS_PER_TOKEN]

theorem buildBatchesGo_flatten : ∀ (chunks current : List MemoryChunk) (tokens : Nat),
    (buildBatchesGo chunks current tokens).flatten = current ++ chunks
  | [], current, tokens => by
    by_cases h : current = [] <;> simp [buildBatchesGo, h]
  | c :: rest, current, tokens => by
    have ih1 := buildBatchesGo_flatten rest [] 0
    have ih2 := buildBatchesGo_flatten rest [c] (estimateTokens c)
    have ih3 := buildBatchesGo_flatten rest (current ++ [c]) (tokens + estimateTokens c)
    simp only [buildBatchesGo]
    split
    · split
      · simp [ih1]
      · simp [ih2]
    · split
      · rename_i h1 h2
        simp [ih1, h2.1]
      · simp [ih3]

theorem buildBatchesGo_bounded : ∀ (chunks current : List MemoryChunk) (tokens : Nat),
    tokens = batchTokens current → tokens ≤ EMBEDDING_BATCH_MAX_TOKENS →
    ∀ b ∈ buildBatchesGo chunks current tokens,
      batchTokens b ≤ EMBEDDING_BATCH_MAX_TOKENS ∨
        ∃ c, b = [c] ∧ EMBEDDING_BATCH_MAX_TOKENS < estimateTokens c
  | [], current, tokens => by
    intro hsum hle b hb
    by_cases h : current = [] <;> simp [buildBatchesGo, h] at hb
    subst hb
    exact Or.inl (hsum ▸ hle)
  | c :: rest, current, tokens => by
    intro hsum hle b hb
    simp only [buildBatchesGo] at hb
    split at hb
    · rename_i h1
      split at hb
      · rename_i h2
        simp only [List.mem_cons] at hb
        rcases hb with hb | hb | hb
        · exact Or.inl (hb ▸ hsum ▸ hle)
        · exact Or.inr ⟨c, hb, h2⟩
        · exact buildBatchesGo_bounded rest [] 0 (by simp [batchTokens]) (by simp) b hb
      · rename_i h2
        simp only [List.mem_cons] at hb
        rcases hb with hb | hb
        · exact Or.inl (hb ▸ hsum ▸ hle)
        · exact buildBatchesGo_bounded rest [c] (estimateTokens c)
            (by simp [batchTokens]) (by omega) b hb
    · rename_i h1
      split at hb
      · rename_i h2
        simp only [List.mem_cons] at hb
        rcases hb with hb | hb
        · exact Or.inr ⟨c, hb, h2.2⟩
        · exact buildBatchesGo_bounded rest [] 0 (by simp [batchTokens]) (by simp) b hb
      · rename_i h2
        refine buildBatchesGo_bounded rest (current ++ [c]) (tokens + estimateTokens c)
          (by simp [batchTokens] at hsum ⊢; omega) ?_ b hb
        by_cases hc : current = []
        · have : tokens = 0 := by simp [hc, batchTokens] at hsum; omega
          have hest : ¬ estimateTokens c > EMBEDDING_BATCH_MAX_TOKENS := by
            intro hgt; exact h2 ⟨hc, hgt⟩
          omega
        · have : ¬ (tokens + estimateTokens c > EMBEDDING_BATCH_MAX_TOKENS) := by
            intro hgt; exact h1 ⟨hc, hgt⟩
          omega

/-- C9: `buildEmbeddingBatches` splits the input list, in order, into consecutive
batches; concatenating the batches gives back exactly the input, and every batch
either has summed token estimate ≤ `EMBEDDING_BATCH_MAX_TOKENS` (8000) or is a
singleton whose single chunk's own estimate exceeds that limit. -/
theorem buildEmbeddingBatches_spec (chunks : List MemoryChunk) :
    (buildEmbeddingBatches chunks).flatten = chunks ∧
    ∀ b ∈ buildEmbeddingBatches chunks,
      batchTokens b ≤ EMBEDDING_BATCH_MAX_TOKENS ∨
        ∃ c, b = [c] ∧ EMBEDDING_BATCH_MAX_TOKENS < estimateTokens c := by
  constructor
  · simpa using buildBatchesGo_flatten chunks [] 0
  · exact buildBatchesGo_bounded chunks [] 0 (by simp [batchTokens]) (by simp)

/-- Witness for C9 at the one-chunk input: the single produced batch satisfies the
batch bound. -/
theorem buildEmbeddingBatches_spec_witness :
    [demoChunk] ∈ buildEmbeddingBatches [demoChunk] ∧
      (batchTokens [demoChunk] ≤ EMBEDDING_BATCH_MAX_TOKENS ∨
        ∃ c, [demoChunk] = [c] ∧ EMBEDDING_BATCH_MAX_TOKENS < estimateTokens c) := by
  have hmem : [demoChunk] ∈ buildEmbeddingBatches [demoChunk] := by
    simp [buildEmbeddingBatches, buildBatchesGo, estimateTokens_eq, demoChunk,
      EMBEDDING_BATCH_MAX_TOKENS]
  exact ⟨hmem, (buildEmbeddingBatches_spec [demoChunk]).2 [demoChunk] hmem⟩

/-! ## C2 — batch failure counter and disable latch -/

theorem runManagerBatchSequence_disabled (st : BatchState) (h : st.batchEnabled = false) :
    ∀ events : List ManagerBatchEvent, (∀ e ∈ events, e.isCall = true) →
      (runManagerBatchSequence st events).1.batchEnabled = false ∧
      ∀ flag ∈ (runManagerBatchSequence st events).2, flag = false
  | [], _ => by simp [runManagerBatchSequence, h]
  | e :: rest, hall => by
    cases e with
    | call provider o =>
      have hstep : managerBatchStep st (.call provider o) = (st, false) := by
        simp [managerBatchStep, runBatchWithFallback, h]
      have ih := runManagerBatchSequence_disabled st h rest
        (fun e he => hall e (List.mem_cons_of_mem _ he))
      simp only [runManagerBatchSequence, hstep, List.mem_cons]
      refine ⟨ih.1, ?_⟩
      rintro flag (rfl | hf)
      · rfl
      · exact ih.2 flag hf
    | fallbackSwitch sbe oa g pid =>
      exact absurd (hall _ (List.mem_cons_self _ _)) (by simp [ManagerBatchEvent.isCall])

/-- C2 counterexample to "disabled for the remainder of the process": from a fresh
enabled state, one endpoint-not-available failure latches the counter to the limit
and clears the enabled flag; a fallback switch to openai (settings batch enabled,
openai client present) then reassigns `this.batch = resolveBatchConfig()`, which
recomputes the flag to true, and the next embedding call submits a batch job again
— the submission flags of the run are [true, false, true]. -/
theorem batchReenable_counterexample :
    (managerBatchStep ⟨0, true, none, none⟩
        (.call "gemini" ⟨some "asyncBatchEmbedContent not available", none⟩)).1
      = ⟨BATCH_FAILURE_LIMIT, false,
         some "asyncBatchEmbedContent not available", some "gemini"⟩ ∧
    (runManagerBatchSequence ⟨0, true, none, none⟩
        [.call "gemini" ⟨some "asyncBatchEmbedContent not available", none⟩,
         .fallbackSwitch true true false "openai",
         .call "openai" ⟨none, none⟩]).2
      = [true, false, true] := by
  refine ⟨by decide, by decide⟩

/-- C2: a failed batch submission recorded while batch mode is enabled adds
`max(1, attempts)` to the failure counter — or `BATCH_FAILURE_LIMIT` (2) on the
explicit endpoint-not-available signal; once the counter reaches the limit the
in-place `ctx.batchConfig.enabled` flag is cleared, and while only embedding
calls occur the disable persists: every such call takes the per-request fallback
without submitting a batch job; a successful batch resets the counter to zero.
The disable is not process-lifetime: a fallback-provider switch reassigns
`this.batch = this.resolveBatchConfig()` (manager.ts line 1127), recomputing the
enabled flag from the settings while leaving the failure counter untouched, and
a successful call after a re-enabling switch submits a batch job again. -/
theorem batchFailurePolicy_spec (st : BatchState) (provider message : String)
    (attempts : Option Nat) (o : BatchRunOutcome)
    (events : List ManagerBatchEvent) (sbe oa g : Bool) (pid : String) :
    (st.batchEnabled = true →
      (recordBatchFailure st provider message attempts false).1.batchFailureCount
          = st.batchFailureCount + max 1 (attempts.getD 1) ∧
      (recordBatchFailure st provider message attempts true).1.batchFailureCount
          = st.batchFailureCount + BATCH_FAILURE_LIMIT) ∧
    (∀ force, st.batchEnabled = true →
      BATCH_FAILURE_LIMIT ≤ (recordBatchFailure st provider message attempts force).2.2 →
      (recordBatchFailure st provider message attempts force).1.batchEnabled = false) ∧
    (st.batchEnabled = false → runBatchWithFallback st provider o = (st, false, true)) ∧
    (st.batchEnabled = false → (∀ e ∈ events, e.isCall = true) →
      (runManagerBatchSequence st events).1.batchEnabled = false ∧
      ∀ flag ∈ (runManagerBatchSequence st events).2, flag = false) ∧
    (st.batchEnabled = true → o.firstError = none →
      runBatchWithFallback st provider o = (resetBatchFailureCount st, true, false) ∧
      (resetBatchFailureCount st).batchFailureCount = 0) ∧
    ((managerBatchStep st (.fallbackSwitch sbe oa g pid)).1.batchEnabled
        = resolveBatchConfigEnabled sbe oa g pid ∧
      (managerBatchStep st (.fallbackSwitch sbe oa g pid)).1.batchFailureCount
        = st.batchFailureCount) ∧
    (resolveBatchConfigEnabled sbe oa g pid = true → o.firstError = none →
      (managerBatchStep (managerBatchStep st (.fallbackSwitch sbe oa g pid)).1
          (.call provider o)).2 = true) := by
  refine ⟨?_, ?_, ?_, ?_, ?_, ?_, ?_⟩
  · intro h
    constructor <;> simp [recordBatchFailure, h]
  · intro force h hcount
    cases force <;>
      simp only [recordBatchFailure, h, Bool.true_eq_false, if_false, Bool.false_or,
        Bool.true_or] at hcount ⊢ <;> simp_all
  · intro h
    simp [runBatchWithFallback, h]
  · intro h hall
    exact runManagerBatchSequence_disabled st h events hall
  · intro h ho
    constructor
    · simp [runBatchWithFallback, runBatchWithTimeoutRetry, h, ho]
    · simp [resetBatchFailureCount]
  · exact ⟨rfl, rfl⟩
  · intro h ho
    simp [managerBatchStep, runBatchWithFallback, runBatchWithTimeoutRetry, h, ho]

/-- Witness for C2 at concrete states: an enabled state records `0 + max 1 2`,
a disabled state never submits, a success resets the counter, and after a
re-enabling fallback switch a successful call submits a batch job again. -/
theorem batchFailurePolicy_spec_witness :
    ((⟨0, true, none, none⟩ : BatchState).batchEnabled = true ∧
      (recordBatchFailure ⟨0, true, none, none⟩ "gemini" "boom" (some 2)
        false).1.batchFailureCount = 0 + max 1 ((some 2).getD 1)) ∧
    ((⟨5, false, none, none⟩ : BatchState).batchEnabled = false ∧
      runBatchWithFallback ⟨5, false, none, none⟩ "gemini" ⟨some "x", none⟩
        = (⟨5, false, none, none⟩, false, true)) ∧
    (runBatchWithFallback ⟨1, true, none, none⟩ "openai" ⟨none, none⟩
        = (resetBatchFailureCount ⟨1, true, none, none⟩, true, false) ∧
      (resetBatchFailureCount (⟨1, true, none, none⟩ : BatchState)).batchFailureCount = 0) ∧
    (resolveBatchConfigEnabled true true false "openai" = true ∧
      (managerBatchStep (managerBatchStep ⟨2, false, none, none⟩
          (.fallbackSwitch true true false "openai")).1
        (.call "openai" ⟨none, none⟩)).2 = true) :=
  ⟨⟨rfl, ((batchFailurePolicy_spec ⟨0, true, none, none⟩ "gemini" "boom" (some 2)
      ⟨some "x", none⟩ [] true true false "openai").1 rfl).1⟩,
   ⟨rfl, (batchFailurePolicy_spec ⟨5, false, none, none⟩ "gemini" "boom" none
      ⟨some "x", none⟩ [] true true false "openai").2.2.1 rfl⟩,
   (batchFailurePolicy_spec ⟨1, true, none, none⟩ "openai" "m" none
      ⟨none, none⟩ [] true true false "openai").2.2.2.2.1 rfl rfl,
   ⟨rfl, (batchFailurePolicy_spec ⟨2, false, none, none⟩ "openai" "m" none
      ⟨none, none⟩ [] true true false "openai").2.2.2.2.2.2 rfl rfl⟩⟩
/-! ## C3 -/

theorem embedRetryGo_spec (oracle : Nat → Except String EmbRows) (jitter : Nat → ℚ) :
    ∀ (fuel attempt : Nat) (delay : ℚ),
      EMBEDDING_RETRY_MAX_ATTEMPTS ≤ attempt + fuel →
      attempt ≤ EMBEDDING_RETRY_MAX_ATTEMPTS →
      (attempt < (embedRetryGo oracle jitter attempt delay).2.1 ∧
        (embedRetryGo oracle jitter attempt delay).2.1 ≤ EMBEDDING_RETRY_MAX_ATTEMPTS + 1) ∧
      (∀ k, attempt ≤ k → k + 1 < (embedRetryGo oracle jitter attempt delay).2.1 →
        ∃ m, oracle k = .error m ∧ isRetryableEmbeddingError m = true) ∧
      (∀ v, oracle ((embedRetryGo oracle jitter attempt delay).2.1 - 1) = .ok v →
        (embedRetryGo oracle jitter attempt delay).1 = .ok v) ∧
      (∀ m, oracle ((embedRetryGo oracle jitter attempt delay).2.1 - 1) = .error m →
        (embedRetryGo oracle jitter attempt delay).1 = .error m ∧
          (isRetryableEmbeddingError m = false ∨
            (embedRetryGo oracle jitter attempt delay).2.1
              = EMBEDDING_RETRY_MAX_ATTEMPTS + 1)) ∧
      ((embedRetryGo oracle jitter attempt delay).2.2.length
          = (embedRetryGo oracle jitter attempt delay).2.1 - 1 - attempt) ∧
      (∀ i (hi : i < (embedRetryGo oracle jitter attempt delay).2.2.length),
        (embedRetryGo oracle jitter attempt delay).2.2.get ⟨i, hi⟩
          = min EMBEDDING_RETRY_MAX_DELAY_MS
              ((round (delay * 2 ^ i * (1 + jitter (attempt + i))) : ℤ) : ℚ)) := by
  intro fuel
  induction fuel with
  | zero =>
    intro attempt delay hf ha
    have hatt : attempt = EMBEDDING_RETRY_MAX_ATTEMPTS := by omega
    cases h : oracle attempt with
    | ok v =>
      rw [embedRetryGo, h]
      dsimp only
      refine ⟨⟨by omega, by omega⟩, ?_, ?_, ?_, by simp, ?_⟩
      · intro k hk hk2; omega
      · intro w hw
        simp only [Nat.add_sub_cancel] at hw
        rw [h] at hw
        injection hw with hvw
        rw [hvw]
      · intro m hm
        simp only [Nat.add_sub_cancel] at hm
        rw [h] at hm; cases hm
      · intro i hi; simp at hi
    | error m =>
      rw [embedRetryGo, h]
      dsimp only
      rw [if_pos (Or.inr (by omega))]
      dsimp only
      refine ⟨⟨by omega, by omega⟩, ?_, ?_, ?_, by simp, ?_⟩
      · intro k hk hk2; omega
      · intro v hv
        simp only [Nat.add_sub_cancel] at hv
        rw [h] at hv; cases hv
      · intro m2 hm2
        simp only [Nat.add_sub_cancel] at hm2
        rw [h] at hm2
        injection hm2 with hmm
        rw [hmm] at h ⊢
        exact ⟨rfl, Or.inr (by omega)⟩
      · intro i hi; simp at hi
  | succ fuel ih =>
    intro attempt delay hf ha
    cases h : oracle attempt with
    | ok v =>
      rw [embedRetryGo, h]
      dsimp only
      refine ⟨⟨by omega, by omega⟩, ?_, ?_, ?_, by simp, ?_⟩
      · intro k hk hk2; omega
      · intro w hw
        simp only [Nat.add_sub_cancel] at hw
        rw [h] at hw
        injection hw with hvw
        rw [hvw]
      · intro m hm
        simp only [Nat.add_sub_cancel] at hm
        rw [h] at hm; cases hm
      · intro i hi; simp at hi
    | error m =>
      rw [embedRetryGo, h]
      dsimp only
      by_cases hc : isRetryableEmbeddingError m = false ∨ attempt ≥ EMBEDDING_RETRY_MAX_ATTEMPTS
      · rw [if_pos hc]
        dsimp only
        refine ⟨⟨by omega, by omega⟩, ?_, ?_, ?_, by simp, ?_⟩
        · intro k hk hk2; omega
        · intro v hv
          simp only [Nat.add_sub_cancel] at hv
          rw [h] at hv; cases hv
        · intro m2 hm2
          simp only [Nat.add_sub_cancel] at hm2
          rw [h] at hm2
          injection hm2 with hmm
          rw [hmm] at h hc ⊢
          refine ⟨rfl, ?_⟩
          rcases hc with hc | hc
          · exact Or.inl hc
          · exact Or.inr (by omega)
        · intro i hi; simp at hi
      · rw [if_neg hc]
        dsimp only
        push_neg at hc
        obtain ⟨hret, hlt⟩ := hc
        have hret' : isRetryableEmbeddingError m = true := by
          cases hb : isRetryableEmbeddingError m with
          | true => rfl
          | false => exact absurd hb hret
        have IH := ih (attempt + 1) (delay * 2) (by omega) (by omega)
        obtain ⟨⟨ih1, ih2⟩, ih3, ih4, ih5, ih6, ih7⟩ := IH
        refine ⟨⟨by omega, ih2⟩, ?_, ih4, ih5, ?_, ?_⟩
        · intro k hk hk2
          rcases Nat.eq_or_lt_of_le hk with rfl | hk'
          · exact ⟨m, h, hret'⟩
          · exact ih3 k (by omega) hk2
        · simp only [List.length_cons]
          omega
        · intro i hi
          cases i with
          | zero =>
            simp only [List.get]
            norm_num
          | succ j =>
            simp only [List.get]
            have hj : j < (embedRetryGo oracle jitter (attempt + 1) (delay * 2)).2.2.length := by
              simp only [List.length_cons] at hi
              omega
            rw [ih7 j hj]
            have harg : attempt + 1 + j = attempt + (j + 1) := by omega
            rw [harg]
            congr 2
            ring_nf

theorem isRetryable_429 : isRetryableEmbeddingError "429" = true := by decide

/-- C3 counterexample: with every call failing with a retryable "429" error,
`embedBatchWithRetry` makes 4 provider calls (the initial attempt plus
`EMBEDDING_RETRY_MAX_ATTEMPTS = 3` retries), not at most 3 as the claim states. -/
theorem embedBatchWithRetry_four_calls :
    (embedBatchWithRetry ["x"] (fun _ => .error "429") (fun _ => 0)).2.1 = 4 ∧
    ¬((embedBatchWithRetry ["x"] (fun _ => .error "429") (fun _ => 0)).2.1 ≤ 3) := by
  have h4 : (embedBatchWithRetry ["x"] (fun _ => .error "429") (fun _ => 0)).2.1 = 4 := by
    simp [embedBatchWithRetry, embedRetryGo, isRetryable_429, EMBEDDING_RETRY_MAX_ATTEMPTS]
  exact ⟨h4, by omega⟩

/-- C3 (amended): for a non-empty text list, `embedBatchWithRetry` makes between 1
and 4 provider calls (initial attempt + at most `EMBEDDING_RETRY_MAX_ATTEMPTS = 3`
retries); every call before the last failed with a message matching the code's
retry pattern `rate[_ ]limit|too many requests|429|resource has been
exhausted|5\d\d|cloudflare` (case-insensitive); the last call's outcome is
propagated, an error only when non-retryable or when all 4 calls are spent; a
non-matching first error propagates immediately after one call; and the i-th
backoff wait is `min(8000, round(500·2^i·(1 + jitter_i)))` ms with jitter sampled
in `[0, 0.2)` — purely additive. -/
theorem embedBatchWithRetry_spec (texts : List String)
    (oracle : Nat → Except String EmbRows) (jitter : Nat → ℚ) (h : texts ≠ []) :
    (1 ≤ (embedBatchWithRetry texts oracle jitter).2.1 ∧
      (embedBatchWithRetry texts oracle jitter).2.1 ≤ EMBEDDING_RETRY_MAX_ATTEMPTS + 1) ∧
    (∀ k, k + 1 < (embedBatchWithRetry texts oracle jitter).2.1 →
      ∃ m, oracle k = .error m ∧ isRetryableEmbeddingError m = true) ∧
    (∀ v, oracle ((embedBatchWithRetry texts oracle jitter).2.1 - 1) = .ok v →
      (embedBatchWithRetry texts oracle jitter).1 = .ok v) ∧
    (∀ m, oracle ((embedBatchWithRetry texts oracle jitter).2.1 - 1) = .error m →
      (embedBatchWithRetry texts oracle jitter).1 = .error m ∧
        (isRetryableEmbeddingError m = false ∨
          (embedBatchWithRetry texts oracle jitter).2.1 = EMBEDDING_RETRY_MAX_ATTEMPTS + 1)) ∧
    (∀ m, oracle 0 = .error m → isRetryableEmbeddingError m = false →
      (embedBatchWithRetry texts oracle jitter).2.1 = 1 ∧
        (embedBatchWithRetry texts oracle jitter).1 = .error m) ∧
    ((embedBatchWithRetry texts oracle jitter).2.2.length
        = (embedBatchWithRetry texts oracle jitter).2.1 - 1) ∧
    (∀ i (hi : i < (embedBatchWithRetry texts oracle jitter).2.2.length),
      (embedBatchWithRetry texts oracle jitter).2.2.get ⟨i, hi⟩
        = min EMBEDDING_RETRY_MAX_DELAY_MS
            ((round (EMBEDDING_RETRY_BASE_DELAY_MS * 2 ^ i * (1 + jitter i)) : ℤ) : ℚ)) := by
  have hspec := embedRetryGo_spec oracle jitter EMBEDDING_RETRY_MAX_ATTEMPTS 0
    EMBEDDING_RETRY_BASE_DELAY_MS (by omega) (by omega)
  rw [embedBatchWithRetry, if_neg h]
  obtain ⟨⟨h1, h2⟩, h3, h4, h5, h6, h7⟩ := hspec
  have hone : ∀ m, oracle 0 = .error m → isRetryableEmbeddingError m = false →
      (embedRetryGo oracle jitter 0 EMBEDDING_RETRY_BASE_DELAY_MS).2.1 = 1 ∧
      (embedRetryGo oracle jitter 0 EMBEDDING_RETRY_BASE_DELAY_MS).1 = .error m := by
    intro m hm hnr
    have hcalls : (embedRetryGo oracle jitter 0 EMBEDDING_RETRY_BASE_DELAY_MS).2.1 = 1 := by
      by_contra hne
      have hgt : 1 < (embedRetryGo oracle jitter 0 EMBEDDING_RETRY_BASE_DELAY_MS).2.1 := by
        omega
      obtain ⟨m2, hm2, hr2⟩ := h3 0 (by omega) (by omega)
      rw [hm] at hm2
      injection hm2 with hmm
      rw [← hmm] at hr2
      rw [hr2] at hnr
      cases hnr
    refine ⟨hcalls, ?_⟩
    have := h5 m (by rw [hcalls]; simpa using hm)
    exact this.1
  refine ⟨⟨by omega, h2⟩, ?_, h4, h5, hone, h6, ?_⟩
  · intro k hk
    exact h3 k (by omega) hk
  · intro i hi
    rw [h7 i hi]
    norm_num

/-- Witness for the amended C3 at a concrete run: the message
"resource exhausted" (which the spec's pattern would match) is not matched by the
code's pattern, so the error propagates after exactly one call. -/
theorem embedBatchWithRetry_spec_witness :
    isRetryableEmbeddingError "resource exhausted" = false ∧
    (embedBatchWithRetry ["x"] (fun _ => .error "resource exhausted") (fun _ => 0)).2.1 = 1 ∧
    (embedBatchWithRetry ["x"] (fun _ => .error "resource exhausted") (fun _ => 0)).1
      = .error "resource exhausted" := by
  have hnr : isRetryableEmbeddingError "resource exhausted" = false := by decide
  have happ := (embedBatchWithRetry_spec ["x"] (fun _ => .error "resource exhausted")
    (fun _ => 0) (by simp)).2.2.2.2.1 "resource exhausted" rfl hnr
  exact ⟨hnr, happ.1, happ.2⟩
/-! ## C1 -/

theorem renameFile_noFault (fs : SwapFS) (faults : RenameFaults)
    (src dst : FileRole × FileSuffix) (h : faults src dst = false) :
    renameFile fs faults src dst = .ok (renamedFS fs src dst) := by
  unfold renameFile renamedFS
  rw [h]
  simp only [Bool.false_eq_true, if_false]
  cases hv : fs src.1 src.2 with
  | none =>
    dsimp only
    congr 1
    funext r s
    by_cases c1 : r = dst.1 ∧ s = dst.2
    · rw [if_pos c1, Option.none_or, c1.1, c1.2]
    · rw [if_neg c1]
      by_cases c2 : r = src.1 ∧ s = src.2
      · rw [if_pos c2, c2.1, c2.2, hv]
      · rw [if_neg c2]
  | some content =>
    dsimp only
    congr 1

theorem renameFile_fault (fs : SwapFS) (faults : RenameFaults)
    (src dst : FileRole × FileSuffix) (h : faults src dst = true) :
    renameFile fs faults src dst = .error fs := by
  unfold renameFile
  rw [h]
  rfl

theorem moveIndexFiles_noFault (fs : SwapFS) (faults : RenameFaults) (src dst : FileRole)
    (hsd : src ≠ dst) (hf : ∀ s, faults (src, s) (dst, s) = false) :
    moveIndexFiles fs faults src dst
      = .ok (fun r s =>
          if r = dst then (fs src s).or (fs dst s)
          else if r = src then none
          else fs r s) := by
  unfold moveIndexFiles
  rw [renameFile_noFault fs faults (src, .db) (dst, .db) (hf .db)]
  dsimp only
  rw [renameFile_noFault _ faults (src, .wal) (dst, .wal) (hf .wal)]
  dsimp only
  rw [renameFile_noFault _ faults (src, .shm) (dst, .shm) (hf .shm)]
  unfold renamedFS
  congr 1
  funext r s
  have hds : dst ≠ src := fun hh => hsd hh.symm
  cases s <;>
    by_cases hr1 : r = dst <;>
      by_cases hr2 : r = src <;>
        simp_all

theorem moveIndexFiles_fault_db (fs : SwapFS) (faults : RenameFaults) (src dst : FileRole)
    (h1 : faults (src, .db) (dst, .db) = true) :
    moveIndexFiles fs faults src dst = .error fs := by
  unfold moveIndexFiles
  rw [renameFile_fault fs faults (src, .db) (dst, .db) h1]

theorem moveIndexFiles_fault_wal (fs : SwapFS) (faults : RenameFaults) (src dst : FileRole)
    (h1 : faults (src, .db) (dst, .db) = false)
    (h2 : faults (src, .wal) (dst, .wal) = true) :
    moveIndexFiles fs faults src dst = .error (renamedFS fs (src, .db) (dst, .db)) := by
  unfold moveIndexFiles
  rw [renameFile_noFault fs faults (src, .db) (dst, .db) h1]
  dsimp only
  rw [renameFile_fault _ faults (src, .wal) (dst, .wal) h2]

theorem moveIndexFiles_fault_shm (fs : SwapFS) (faults : RenameFaults) (src dst : FileRole)
    (h1 : faults (src, .db) (dst, .db) = false)
    (h2 : faults (src, .wal) (dst, .wal) = false)
    (h3 : faults (src, .shm) (dst, .shm) = true) :
    moveIndexFiles fs faults src dst
      = .error (renamedFS (renamedFS fs (src, .db) (dst, .db)) (src, .wal) (dst, .wal)) := by
  unfold moveIndexFiles
  rw [renameFile_noFault fs faults (src, .db) (dst, .db) h1]
  dsimp only
  rw [renameFile_noFault _ faults (src, .wal) (dst, .wal) h2]
  dsimp only
  rw [renameFile_fault _ faults (src, .shm) (dst, .shm) h3]

/-- C1 (amended): assuming the backup path is initially free and the backup and
restore renames themselves do not fail, a successful `swapIndexFiles` leaves the
primary file set equal to the temporary store's set and removes the backup files;
and when the second move (temporary → primary) fails, the restore brings every
primary file back to its pre-swap content and the error propagates — provided every
suffix present in the temporary set was also present in the pre-swap primary set
(without that proviso a temp-only sibling already moved survives the restore). -/
theorem swapIndexFiles_spec (fs : SwapFS) (faults : RenameFaults)
    (hbackup : ∀ s, fs .backup s = none)
    (hf1 : ∀ s, faults (.primary, s) (.backup, s) = false)
    (hf3 : ∀ s, faults (.backup, s) (.primary, s) = false)
    (hsub : ∀ s, fs .temp s ≠ none → fs .primary s ≠ none) :
    (∀ fs2, swapIndexFiles fs faults = .ok fs2 →
      (∀ s, fs2 .primary s = fs .temp s) ∧ (∀ s, fs2 .backup s = none)) ∧
    (∀ fs2, swapIndexFiles fs faults = .error fs2 →
      ∀ s, fs2 .primary s = fs .primary s) := by
  have hsub2 : ∀ s, fs .primary s = none → fs .temp s = none := by
    intro s h
    by_contra hne
    exact (hsub s hne) h
  have hpb : FileRole.primary ≠ FileRole.backup := by simp
  have hbp : FileRole.backup ≠ FileRole.primary := by simp
  have htp : FileRole.temp ≠ FileRole.primary := by simp
  unfold swapIndexFiles
  rw [moveIndexFiles_noFault fs faults .primary .backup hpb hf1]
  dsimp only
  by_cases f1 : faults (.temp, .db) (.primary, .db) = true
  · -- second move fails at the db rename: nothing of temp has moved yet
    rw [moveIndexFiles_fault_db _ faults .temp .primary f1]
    dsimp only
    rw [moveIndexFiles_noFault _ faults .backup .primary hbp hf3]
    dsimp only
    refine ⟨fun fs2 heq => ?_, fun fs2 heq => ?_⟩
    · exact absurd heq (by simp)
    · injection heq with heq
      subst heq
      intro s
      simp [hbackup s]
  · have h1 : faults (.temp, .db) (.primary, .db) = false := by
      cases hb : faults (.temp, .db) (.primary, .db) with
      | true => exact absurd hb f1
      | false => rfl
    by_cases f2 : faults (.temp, .wal) (.primary, .wal) = true
    · -- fails at the wal rename: the db file has already been moved
      rw [moveIndexFiles_fault_wal _ faults .temp .primary h1 f2]
      dsimp only
      rw [moveIndexFiles_noFault _ faults .backup .primary hbp hf3]
      dsimp only
      refine ⟨fun fs2 heq => ?_, fun fs2 heq => ?_⟩
      · exact absurd heq (by simp)
      · injection heq with heq
        subst heq
        intro s
        cases s <;> simp [renamedFS, hbackup]
        · cases hps : fs .primary FileSuffix.db with
          | some c => simp
          | none => simp [hsub2 _ hps]
    · have h2 : faults (.temp, .wal) (.primary, .wal) = false := by
        cases hb : faults (.temp, .wal) (.primary, .wal) with
        | true => exact absurd hb f2
        | false => rfl
      by_cases f3 : faults (.temp, .shm) (.primary, .shm) = true
      · -- fails at the shm rename: db and wal have already been moved
        rw [moveIndexFiles_fault_shm _ faults .temp .primary h1 h2 f3]
        dsimp only
        rw [moveIndexFiles_noFault _ faults .backup .primary hbp hf3]
        dsimp only
        refine ⟨fun fs2 heq => ?_, fun fs2 heq => ?_⟩
        · exact absurd heq (by simp)
        · injection heq with heq
          subst heq
          intro s
          cases s <;> simp [renamedFS, hbackup]
          · cases hps : fs .primary FileSuffix.db with
            | some c => simp
            | none => simp [hsub2 _ hps]
          · cases hps : fs .primary FileSuffix.wal with
            | some c => simp
            | none => simp [hsub2 _ hps]
      · have h3 : faults (.temp, .shm) (.primary, .shm) = false := by
          cases hb : faults (.temp, .shm) (.primary, .shm) with
          | true => exact absurd hb f3
          | false => rfl
        have hfmv : ∀ s, faults (FileRole.temp, s) (FileRole.primary, s) = false := by
          intro s
          cases s
          · exact h1
          · exact h2
          · exact h3
        rw [moveIndexFiles_noFault _ faults .temp .primary htp hfmv]
        dsimp only
        refine ⟨fun fs2 heq => ?_, fun fs2 heq => ?_⟩
        · injection heq with heq
          subst heq
          constructor
          · intro s
            simp [removeIndexFiles]
          · intro s
            simp [removeIndexFiles]
        · exact absurd heq (by simp)

/-- C1 counterexample: start from a primary set holding only the db file while the
temporary set has db, wal and shm; let the `temp-shm → primary-shm` rename fail.
The swap errors out, yet the resulting primary set holds the OLD db (some 1)
together with the temporary store's NEW wal (some 3) — a mix that is neither the
complete pre-sync set (whose wal slot was empty) nor the complete new set (whose db
is some 2), so the restore did not bring back the pre-sync file set. -/
theorem swapIndexFiles_mix_counterexample :
    (swapIndexFiles demoSwapFS demoFaultShm).isOk = false ∧
    swapResultFS (swapIndexFiles demoSwapFS demoFaultShm) .primary .wal = some 3 ∧
    demoSwapFS .primary .wal = none ∧
    swapResultFS (swapIndexFiles demoSwapFS demoFaultShm) .primary .db = some 1 ∧
    demoSwapFS .temp .db = some 2 := by
  refine ⟨?_, ?_, rfl, ?_, rfl⟩ <;> rfl

/-- Witness for the amended C1 at a fault-free run: the new primary db equals the
temporary store's db and the backup db file is gone. -/
theorem swapIndexFiles_spec_witness :
    swapResultFS (swapIndexFiles demoSwapOk (fun _ _ => false)) .primary .db
        = demoSwapOk .temp .db ∧
    swapResultFS (swapIndexFiles demoSwapOk (fun _ _ => false)) .backup .db = none := by
  have h := (swapIndexFiles_spec demoSwapOk (fun _ _ => false)
      (fun s => by cases s <;> rfl) (fun _ => rfl) (fun _ => rfl)
      (fun s => by cases s <;> intro h <;> simp_all [demoSwapOk])).1
    (swapResultFS (swapIndexFiles demoSwapOk (fun _ _ => false))) rfl
  exact ⟨h.1 .db, h.2 .db⟩
/-! ## C4 -/

/-- C4 counterexample: a sync called with reason "interval" fails with an
embedding-matching error while a fresh local fallback is configured; the code
re-enters the reindex with `force = true` but with reason "interval"
(`params?.reason ?? "fallback"`), not reason `fallback` as the claim states. -/
theorem runSyncCatch_reason_counterexample :
    shouldFallbackOnError "embedding provider failed" = true ∧
    reindexCallOf (runSyncCatch demoMgrState demoFallbackSettings (some "interval")
        "embedding provider failed" demoConstruct demoKeyOf)
      = some { reason := "interval", force := true } ∧
    "interval" ≠ "fallback" := by
  refine ⟨by decide, by rfl, by decide⟩

/-- C4 (amended): when a sync error matches `/embedding|embeddings|batch/i` and an
eligible fallback (configured, not "none", different from the current provider) has
not been applied yet and its construction succeeds, the manager switches provider
in place, records `fallbackFrom`/`fallbackReason`, recomputes the provider key, and
re-enters a full reindex with `force = true` and reason equal to the original
call's reason when one was given, `"fallback"` otherwise; in every other case an
error propagates (the original sync error, or the fallback construction error). -/
theorem runSyncCatch_spec (st : MgrState) (settings : FallbackSettings)
    (paramsReason : Option String) (err : String)
    (construct : String → String → Except String ProviderDesc)
    (keyOf : ProviderDesc → String) :
    (∀ f p, shouldFallbackOnError err = true →
      settings.fallback = some f →
      f ≠ "" → f ≠ "none" → f ≠ st.providerId →
      st.fallbackFrom = none →
      construct f (fallbackModelFor f settings) = .ok p →
      runSyncCatch st settings paramsReason err construct keyOf
        = .ok ({ providerId := p.id, providerModel := p.model, providerKey := keyOf p,
                 fallbackFrom := some st.providerId, fallbackReason := some err },
               { reason := paramsReason.getD "fallback", force := true })) ∧
    (shouldFallbackOnError err = false →
      runSyncCatch st settings paramsReason err construct keyOf = .error err) ∧
    (settings.fallback = none →
      runSyncCatch st settings paramsReason err construct keyOf = .error err) ∧
    (∀ f, settings.fallback = some f → (f = "" ∨ f = "none" ∨ f = st.providerId) →
      runSyncCatch st settings paramsReason err construct keyOf = .error err) ∧
    (∀ f, settings.fallback = some f → f ≠ "" → f ≠ "none" → f ≠ st.providerId →
      st.fallbackFrom.isSome →
      runSyncCatch st settings paramsReason err construct keyOf = .error err) ∧
    (∀ f e, shouldFallbackOnError err = true →
      settings.fallback = some f →
      f ≠ "" → f ≠ "none" → f ≠ st.providerId →
      st.fallbackFrom = none →
      construct f (fallbackModelFor f settings) = .error e →
      runSyncCatch st settings paramsReason err construct keyOf = .error e) := by
  refine ⟨?_, ?_, ?_, ?_, ?_, ?_⟩
  · intro f p hm hf hne hnn hnid hnf hc
    unfold runSyncCatch activateFallbackProvider
    simp [hm, hf, hne, hnn, hnid, hnf, hc]
  · intro hm
    unfold runSyncCatch
    rw [hm]
    simp
  · intro hf
    unfold runSyncCatch activateFallbackProvider
    rw [hf]
    by_cases hm : shouldFallbackOnError err = true <;> simp [hm]
  · intro f hf hcases
    unfold runSyncCatch activateFallbackProvider
    rw [hf]
    by_cases hm : shouldFallbackOnError err = true <;> simp [hm, hcases]
  · intro f hf hne hnn hnid hsome
    unfold runSyncCatch activateFallbackProvider
    rw [hf]
    by_cases hm : shouldFallbackOnError err = true <;>
      simp [hm, hne, hnn, hnid, hsome]
  · intro f e hm hf hne hnn hnid hnf hc
    unfold runSyncCatch activateFallbackProvider
    simp [hm, hf, hne, hnn, hnid, hnf, hc]

/-- Witness for the amended C4: with no original reason, an eligible local fallback
and a matching error, the catch path re-enters with reason "fallback". -/
theorem runSyncCatch_spec_witness :
    runSyncCatch demoMgrState demoFallbackSettings none "embedding timeout"
        demoConstruct demoKeyOf
      = .ok ({ providerId := "local",
               providerModel := fallbackModelFor "local" demoFallbackSettings,
               providerKey := demoKeyOf
                 { id := "local", model := fallbackModelFor "local" demoFallbackSettings },
               fallbackFrom := some "openai", fallbackReason := some "embedding timeout" },
             { reason := "fallback", force := true }) :=
  (runSyncCatch_spec demoMgrState demoFallbackSettings none "embedding timeout"
      demoConstruct demoKeyOf).1
    "local" { id := "local", model := fallbackModelFor "local" demoFallbackSettings }
    (by decide) rfl (by decide) (by decide) (by decide) rfl rfl

/-! ## C6 — session delta processing -/

/-- C6: evaluating the code at the spec's scenario (a transcript growing by 4096
bytes with 30 newlines, thresholds deltaBytes = 8192 / deltaMessages = 20). The
file is marked dirty (messages threshold hit) as the claim says, and the
threshold subtraction is computed — but it is applied to the `delta` record that
`updateSessionDelta` returned (a fresh object discarded after the loop), while the
state stored in the `deltas` map keeps `pendingMessages = 30` instead of the
claimed `30 - 20 = 10`: the persistent pending counters are never decremented. -/
theorem processOneSessionFile_dead_store :
    processOneSessionFile none (some { deltaBytes := 8192, deltaMessages := 20 })
        (some 4096) (fun _ _ => 30)
      = (true,
         some { lastSize := 4096, pendingBytes := 4096, pendingMessages := 30 },
         some { deltaBytes := 8192, deltaMessages := 20,
                pendingBytes := 0, pendingMessages := 10 }) ∧
    (processOneSessionFile none (some { deltaBytes := 8192, deltaMessages := 20 })
        (some 4096) (fun _ _ => 30)).2.1
      ≠ some { lastSize := 4096, pendingBytes := 4096, pendingMessages := 10 } := by
  refine ⟨by decide, by decide⟩
/-! ## C10 -/

theorem list_sum_sq_div (l : List ℚ) (c : ℝ) :
    (l.map (fun q : ℚ => ((q : ℝ)) ^ 2 / c)).sum
      = (l.map (fun q : ℚ => ((q : ℝ)) ^ 2)).sum / c := by
  induction l with
  | nil => simp
  | cons x xs ih => simp [add_div, ih]

theorem magnitudeSq_nonneg (v : List ℚ) : 0 ≤ magnitudeSq v := by
  unfold magnitudeSq
  apply List.sum_nonneg
  intro y hy
  obtain ⟨x, _, rfl⟩ := List.mem_map.mp hy
  exact mul_self_nonneg x

theorem magnitudeSq_cast (v : List ℚ) :
    ((magnitudeSq v : ℚ) : ℝ) = ((v.map (fun q : ℚ => ((q : ℝ)) ^ 2)).sum) := by
  unfold magnitudeSq
  induction v with
  | nil => simp
  | cons x xs ih =>
    simp only [List.map_cons, List.sum_cons]
    push_cast
    rw [List.map_map]
    have hcomp : (Rat.cast ∘ fun x : ℚ => x * x) = fun q : ℚ => ((q : ℝ)) ^ 2 := by
      funext q
      simp only [Function.comp_apply]
      push_cast
      ring
    rw [hcomp]
    ring

/-- C10: every vector the local provider returns has the length of the raw model
output with non-finite components replaced by 0; it is rescaled to unit Euclidean
length (sum of squared components = 1) exactly when the sanitised vector's
magnitude is at least 1e-10, and otherwise returned unnormalised — so a zero or
near-zero output stays as it is (an all-zero vector stays all-zero). -/
theorem sanitizeAndNormalizeEmbedding_spec (vec : List EmbVal) :
    ((sanitizeAndNormalizeEmbedding vec).length = vec.length) ∧
    (∀ i, vec.get? i = some .nonfinite →
      (sanitizeAndNormalizeEmbedding vec).get? i = some 0) ∧
    ((1 / 10 ^ 10 : ℝ) ≤ Real.sqrt ((magnitudeSq (sanitizeVec vec) : ℚ) : ℝ) →
      ((sanitizeAndNormalizeEmbedding vec).map (fun x => x ^ 2)).sum = 1) ∧
    (Real.sqrt ((magnitudeSq (sanitizeVec vec) : ℚ) : ℝ) < 1 / 10 ^ 10 →
      sanitizeAndNormalizeEmbedding vec = (sanitizeVec vec).map (fun q : ℚ => (q : ℝ))) := by
  unfold sanitizeAndNormalizeEmbedding
  by_cases hlt : Real.sqrt ((magnitudeSq (sanitizeVec vec) : ℚ) : ℝ) < 1 / 10 ^ 10
  · rw [if_pos hlt]
    refine ⟨?_, ?_, ?_, fun _ => rfl⟩
    · rw [List.length_map]
      unfold sanitizeVec
      rw [List.length_map]
    · intro i hi
      rw [List.get?_map]
      unfold sanitizeVec
      rw [List.get?_map, hi]
      simp [sanitizeVal]
    · intro hge
      exact absurd hlt (not_lt.mpr hge)
  · rw [if_neg hlt]
    push_neg at hlt
    have hmpos : 0 < Real.sqrt ((magnitudeSq (sanitizeVec vec) : ℚ) : ℝ) :=
      lt_of_lt_of_le (by norm_num) hlt
    have hmsq : (Real.sqrt ((magnitudeSq (sanitizeVec vec) : ℚ) : ℝ)) ^ 2
        = ((magnitudeSq (sanitizeVec vec) : ℚ) : ℝ) :=
      Real.sq_sqrt (by exact_mod_cast magnitudeSq_nonneg (sanitizeVec vec))
    refine ⟨?_, ?_, ?_, ?_⟩
    · rw [List.length_map]
      unfold sanitizeVec
      rw [List.length_map]
    · intro i hi
      rw [List.get?_map]
      unfold sanitizeVec
      rw [List.get?_map, hi]
      simp [sanitizeVal]
    · intro _
      rw [List.map_map]
      have hfun : ((fun x => x ^ 2)
            ∘ fun q : ℚ => (q : ℝ) / Real.sqrt ((magnitudeSq (sanitizeVec vec) : ℚ) : ℝ))
          = fun q : ℚ =>
              ((q : ℝ)) ^ 2 / (Real.sqrt ((magnitudeSq (sanitizeVec vec) : ℚ) : ℝ)) ^ 2 := by
        funext q
        simp [div_pow]
      rw [hfun]
      rw [list_sum_sq_div (sanitizeVec vec)
            ((Real.sqrt ((magnitudeSq (sanitizeVec vec) : ℚ) : ℝ)) ^ 2),
          ← magnitudeSq_cast, hmsq]
      exact div_self (ne_of_gt (hmsq ▸ pow_pos hmpos 2))
    · intro hlt2
      exact absurd hlt2 (not_lt.mpr hlt)

/-- Witness for C10 at the raw output `[3, 4, non-finite]`: the sanitised magnitude
is 5 (≥ 1e-10), the returned vector has unit squared norm, and the non-finite slot
holds 0. -/
theorem sanitizeAndNormalizeEmbedding_spec_witness :
    ((1 / 10 ^ 10 : ℝ) ≤ Real.sqrt ((magnitudeSq (sanitizeVec demoEmb) : ℚ) : ℝ)) ∧
    ((sanitizeAndNormalizeEmbedding demoEmb).map (fun x => x ^ 2)).sum = 1 ∧
    (sanitizeAndNormalizeEmbedding demoEmb).get? 2 = some 0 := by
  have hmagq : magnitudeSq (sanitizeVec demoEmb) = 25 := by
    norm_num [magnitudeSq, sanitizeVec, demoEmb, sanitizeVal]
  have hcast : ((magnitudeSq (sanitizeVec demoEmb) : ℚ) : ℝ) = 25 := by
    rw [hmagq]; norm_num
  have hsqrt : Real.sqrt ((magnitudeSq (sanitizeVec demoEmb) : ℚ) : ℝ) = 5 := by
    rw [hcast, show (25 : ℝ) = 5 ^ 2 by norm_num, Real.sqrt_sq (by norm_num)]
  have hge : (1 / 10 ^ 10 : ℝ)
      ≤ Real.sqrt ((magnitudeSq (sanitizeVec demoEmb) : ℚ) : ℝ) := by
    rw [hsqrt]; norm_num
  exact ⟨hge, (sanitizeAndNormalizeEmbedding_spec demoEmb).2.2.1 hge,
    (sanitizeAndNormalizeEmbedding_spec demoEmb).2.1 2 rfl⟩
/-! ## C7 -/

/-- C7: every list `search` returns contains only hits with score ≥ the effective
minScore and no more than the effective maxResults entries (the hybrid and the
vector-only paths both end in the same filter/cap); for a non-empty trimmed query
the candidate pool passed to keyword and vector search is
`min(200, max(1, floor(maxResults × candidateMultiplier)))`; and an all-zero
embedded query vector skips vector search. -/
theorem search_spec (settings : QuerySettings) (query : String) (opts : SearchOpts)
    (keywordSearch : Nat → List SearchHit) (embedQuery : List ℚ)
    (vectorSearch : Nat → List SearchHit)
    (mergeHybrid : List SearchHit → List SearchHit → ℚ → ℚ → List SearchHit) :
    (∀ r ∈ (search settings query opts keywordSearch embedQuery vectorSearch
        mergeHybrid).results,
      opts.minScore.getD settings.minScore ≤ r.score) ∧
    ((search settings query opts keywordSearch embedQuery vectorSearch
        mergeHybrid).results.length ≤ opts.maxResults.getD settings.maxResults) ∧
    (trimString query ≠ "" →
      (search settings query opts keywordSearch embedQuery vectorSearch
          mergeHybrid).candidates
        = some ((min 200 (max 1
            ⌊((opts.maxResults.getD settings.maxResults : ℚ))
              * settings.hybrid.candidateMultiplier⌋)).toNat)) ∧
    ((∀ v ∈ embedQuery, v = 0) →
      (search settings query opts keywordSearch embedQuery vectorSearch
          mergeHybrid).vectorSearched = false) := by
  unfold search
  by_cases hq : trimString query = ""
  · rw [if_pos hq]
    exact ⟨fun r hr => absurd hr (List.not_mem_nil r), by simp,
      fun hne => absurd hq hne, fun _ => rfl⟩
  · rw [if_neg hq]
    have hzero : (∀ v ∈ embedQuery, v = 0) →
        embedQuery.any (fun v => v != 0) = false := by
      intro h
      rw [List.any_eq_false]
      intro x hx
      simp [h x hx]
    by_cases hh : settings.hybrid.enabled
    · simp only [hh, Bool.not_true, if_false, Bool.false_eq_true]
      refine ⟨?_, ?_, fun _ => rfl, fun h => by simp [hzero h]⟩
      · intro r hr
        have hr2 := (List.take_sublist _ _).subset hr
        have := (List.mem_filter.mp hr2).2
        exact of_decide_eq_true this
      · exact List.length_take_le _ _
    · simp only [eq_false_of_ne_true hh, if_true, Bool.not_false]
      refine ⟨?_, ?_, fun _ => rfl, fun h => by simp [hzero h]⟩
      · intro r hr
        have hr2 := (List.take_sublist _ _).subset hr
        have := (List.mem_filter.mp hr2).2
        exact of_decide_eq_true this
      · exact List.length_take_le _ _

/-- Witness for C7 at a concrete run (hybrid disabled): the hit "a" (score 9/10)
is returned, its score clears minScore 1/2, at most 2 results come back, the
candidate pool is min(200, max(1, floor(2·4))) = 8, and an all-zero query vector
skips vector search. -/
theorem search_spec_witness :
    ({ id := "a", score := 9/10 } : SearchHit) ∈ demoSearch.results ∧
    (1/2 : ℚ) ≤ (9/10 : ℚ) ∧
    demoSearch.results.length ≤ 2 ∧
    demoSearch.candidates = some 8 ∧
    (search demoQuerySettings "q" { maxResults := none, minScore := none }
        (fun _ => []) [0] (fun _ => demoHits) (fun a b _ _ => a ++ b)).vectorSearched
      = false := by
  have hspec := search_spec demoQuerySettings "q" { maxResults := none, minScore := none }
    (fun _ => []) [1] (fun _ => demoHits) (fun a b _ _ => a ++ b)
  have hspec0 := search_spec demoQuerySettings "q" { maxResults := none, minScore := none }
    (fun _ => []) [0] (fun _ => demoHits) (fun a b _ _ => a ++ b)
  have ht : trimString "q" = "q" := by decide
  have hmem : ({ id := "a", score := 9/10 } : SearchHit) ∈ demoSearch.results := by
    norm_num [demoSearch, search, demoQuerySettings, demoHits, candidatesFor, ht,
      eq_false (by decide : ¬("q" = ""))]
  refine ⟨hmem, hspec.1 _ hmem, hspec.2.1, ?_, ?_⟩
  · have hth := hspec.2.2.1 (by decide)
    rw [demoSearch, hth]
    norm_num [demoQuerySettings]
    rfl
  · exact hspec0.2.2.2 (by intro v hv; simp at hv; simp [hv])
/-! ## C5 -/

theorem normSegs_concat (l : List String) (s : String)
    (h1 : s ≠ "") (h2 : s ≠ ".") (h3 : s ≠ "..") :
    normSegs (l ++ [s]) = normSegs l ++ [s] := by
  unfold normSegs
  rw [List.foldl_append]
  simp [h1, h2, h3]

theorem passwd_not_md (ws : List String) :
    endsWithMd (absSegsOf ws "../../etc/passwd") = false := by
  have habs : absSegsOf ws "../../etc/passwd"
      = normSegs ((ws ++ ["..", "..", "etc"]) ++ ["passwd"]) := by
    unfold absSegsOf resolvePath
    rw [show trimString "../../etc/passwd" = "../../etc/passwd" from by decide]
    rw [if_neg (by decide : ¬(strStartsWith "../../etc/passwd" "/" = true))]
    rw [show parseSegs "../../etc/passwd" = ["..", "..", "etc", "passwd"] from by decide]
    simp
  rw [habs, normSegs_concat _ _ (by decide) (by decide) (by decide)]
  unfold endsWithMd
  rw [List.getLast?_concat]
  decide

/-- C5: `readFile` denies any request whose resolved path is neither an allowed
workspace memory `.md` path nor allowed by a configured extra path; it denies
non-`.md` targets (so `../../etc/passwd` is denied under every workspace and
extra-path configuration) and symlinked targets; and for an allowed file read with
`from = f ≥ 1` and `lines = n ≥ 1` the returned text is exactly lines `f` through
`f + n - 1` of the file. -/
theorem readFile_spec (ws : List String) (extraPaths : List (List String)) (fs : FsModel)
    (relPathParam : String) (fromParam linesParam : Option Int) :
    (allowedWorkspaceB ws relPathParam = false →
      extraPaths.any (extraPathAllows fs (absSegsOf ws relPathParam)) = false →
      (readFile ws extraPaths fs relPathParam fromParam linesParam).isOk = false) ∧
    (endsWithMd (absSegsOf ws relPathParam) = false →
      (readFile ws extraPaths fs relPathParam fromParam linesParam).isOk = false) ∧
    (∀ st, fs.lstat (absSegsOf ws relPathParam) = some st → st.isSymbolicLink = true →
      (readFile ws extraPaths fs relPathParam fromParam linesParam).isOk = false) ∧
    ((readFile ws extraPaths fs "../../etc/passwd" fromParam linesParam).isOk = false) ∧
    (∀ f n content stat,
      fromParam = some f → linesParam = some n → 1 ≤ f → 1 ≤ n →
      trimString relPathParam ≠ "" →
      (allowedWorkspaceB ws relPathParam
        || allowedAdditionalB ws extraPaths fs relPathParam) = true →
      endsWithMd (absSegsOf ws relPathParam) = true →
      fs.lstat (absSegsOf ws relPathParam) = some stat →
      stat.isSymbolicLink = false → stat.isFile = true →
      fs.readFileUtf8 (absSegsOf ws relPathParam) = some content →
      readFile ws extraPaths fs relPathParam fromParam linesParam
        = .ok (String.intercalate "\n"
            ((((splitOnChar '\n' content.data).map String.mk).drop (f - 1).toNat).take
              n.toNat),
          relOf ws relPathParam)) := by
  have hmd : ∀ (extraPaths' : List (List String)) (fs' : FsModel) (p : String)
      (f' l' : Option Int), endsWithMd (absSegsOf ws p) = false →
      (readFile ws extraPaths' fs' p f' l').isOk = false := by
    intro extraPaths' fs' p f' l' hmd
    unfold readFile
    by_cases htrim : trimString p = ""
    · rw [if_pos htrim]; rfl
    · rw [if_neg htrim]
      dsimp only
      by_cases hallow : (!allowedWorkspaceB ws p &&
          !allowedAdditionalB ws extraPaths' fs' p) = true
      · rw [if_pos hallow]; rfl
      · rw [if_neg hallow, if_pos (by simp [hmd])]; rfl
  refine ⟨?_, hmd extraPaths fs relPathParam fromParam linesParam, ?_, ?_, ?_⟩
  · intro hw ha
    unfold readFile
    by_cases htrim : trimString relPathParam = ""
    · rw [if_pos htrim]; rfl
    · rw [if_neg htrim]
      dsimp only
      rw [if_pos (by simp [hw, allowedAdditionalB, ha])]
      rfl
  · intro st hst hsym
    unfold readFile
    by_cases htrim : trimString relPathParam = ""
    · rw [if_pos htrim]; rfl
    · rw [if_neg htrim]
      dsimp only
      by_cases hallow : (!allowedWorkspaceB ws relPathParam &&
          !allowedAdditionalB ws extraPaths fs relPathParam) = true
      · rw [if_pos hallow]; rfl
      · rw [if_neg hallow]
        by_cases hm : endsWithMd (absSegsOf ws relPathParam) = false
        · rw [if_pos (by simp [hm])]; rfl
        · rw [if_neg (by simp_all), hst]
          dsimp only
          rw [if_pos (by simp [hsym])]
          rfl
  · exact hmd extraPaths fs "../../etc/passwd" fromParam linesParam (passwd_not_md ws)
  · intro f n content stat hf hn hf1 hn1 htrim hallow hmd2 hst hsym hfile hread
    unfold readFile
    rw [if_neg htrim]
    dsimp only
    rw [if_neg (by rcases Bool.or_eq_true_iff.mp hallow with h | h <;> simp [h])]
    rw [if_neg (by simp [hmd2]), hst]
    dsimp only
    rw [if_neg (by simp [hsym, hfile]), hread]
    dsimp only
    rw [hf, hn]
    rw [if_neg (by simp; omega)]
    have hmax1 : max 1 f = f := max_eq_right hf1
    have hmax2 : max 1 n = n := max_eq_right hn1
    simp only [Option.getD_some, hmax1, hmax2]

/-- Witness for C5: reading `memory/notes.md` with from=5, lines=2 returns exactly
lines 5 and 6, and the same path behind a symlink is denied. -/
theorem readFile_spec_witness :
    readFile demoWs [] demoFs "memory/notes.md" (some 5) (some 2)
      = .ok ("l5\nl6", "memory/notes.md") ∧
    (readFile demoWs [] demoFsSym "memory/notes.md" none none).isOk = false := by
  have h1 := (readFile_spec demoWs [] demoFs "memory/notes.md" (some 5) (some 2)).2.2.2.2
    5 2 demoContent { isSymbolicLink := false, isDirectory := false, isFile := true }
    rfl rfl (by decide) (by decide) (by decide) (by decide) (by decide) (by decide)
    rfl rfl (by decide)
  constructor
  · rw [h1]
    rfl
  · exact (readFile_spec demoWs [] demoFsSym "memory/notes.md" none none).2.2.1
      { isSymbolicLink := true, isDirectory := false, isFile := true } (by decide) rfl

/-! ## C8 -/

theorem isMissingApiKeyError_ne_empty (m : String) (h : isMissingApiKeyError m = true) :
    m ≠ "" := by
  intro hm
  subst hm
  exact absurd h (by decide)

theorem autoRemainder_ne_local (construct : String → Except String Unit)
    (localError : Option String) (localAttempts : List String) :
    (autoRemainder construct localError localAttempts).1 ≠ .ok "local" := by
  unfold autoRemainder
  cases construct "openai" with
  | ok _ => simp
  | error e1 =>
    dsimp only
    split
    · simp
    · cases construct "gemini" with
      | ok _ => simp
      | error e2 =>
        dsimp only
        split
        · simp
        · split <;> simp

/-- C8: in `auto` mode the factory selects Local only when `canAutoSelectLocal`
holds — i.e. `local.modelPath` is set, is not an `hf:`/`http:`/`https:` reference,
and resolves to an existing file — and its construction succeeds; otherwise it
tries OpenAI then Gemini in that order, returning the first that constructs,
skipping exactly the ones failing with a missing-API-key message, propagating any
other construction error immediately (Gemini is then never attempted), and when
all candidates are skipped it fails with the skip reasons (and the formatted local
failure, when local was attempted) joined by blank lines. -/
theorem createEmbeddingProviderAuto_spec (localModelPath : Option String)
    (resolveUserPath : String → String) (isFileAt : String → Bool)
    (construct : String → Except String Unit)
    (formatLocalSetupError : String → String) :
    ((createEmbeddingProviderAuto localModelPath resolveUserPath isFileAt construct
        formatLocalSetupError).1 = .ok "local" →
      canAutoSelectLocal localModelPath resolveUserPath isFileAt = true ∧
      construct "local" = .ok ()) ∧
    (canAutoSelectLocal localModelPath resolveUserPath isFileAt = true →
      ∃ raw, localModelPath = some raw ∧ trimString raw ≠ "" ∧
        startsWithCI (trimString raw) "hf:" = false ∧
        startsWithCI (trimString raw) "http:" = false ∧
        startsWithCI (trimString raw) "https:" = false ∧
        isFileAt (resolveUserPath (trimString raw)) = true) ∧
    (canAutoSelectLocal localModelPath resolveUserPath isFileAt = false →
      construct "openai" = .ok () →
      createEmbeddingProviderAuto localModelPath resolveUserPath isFileAt construct
          formatLocalSetupError
        = (.ok "openai", ["openai"])) ∧
    (canAutoSelectLocal localModelPath resolveUserPath isFileAt = false →
      ∀ e1, construct "openai" = .error e1 → isMissingApiKeyError e1 = false →
      createEmbeddingProviderAuto localModelPath resolveUserPath isFileAt construct
          formatLocalSetupError
        = (.error e1, ["openai"])) ∧
    (canAutoSelectLocal localModelPath resolveUserPath isFileAt = false →
      ∀ e1, construct "openai" = .error e1 → isMissingApiKeyError e1 = true →
      construct "gemini" = .ok () →
      createEmbeddingProviderAuto localModelPath resolveUserPath isFileAt construct
          formatLocalSetupError
        = (.ok "gemini", ["openai", "gemini"])) ∧
    (canAutoSelectLocal localModelPath resolveUserPath isFileAt = false →
      ∀ e1 e2, construct "openai" = .error e1 → isMissingApiKeyError e1 = true →
      construct "gemini" = .error e2 → isMissingApiKeyError e2 = true →
      createEmbeddingProviderAuto localModelPath resolveUserPath isFileAt construct
          formatLocalSetupError
        = (.error (String.intercalate "\n\n" [e1, e2]), ["openai", "gemini"])) ∧
    (canAutoSelectLocal localModelPath resolveUserPath isFileAt = true →
      ∀ el e1 e2, construct "local" = .error el →
      construct "openai" = .error e1 → isMissingApiKeyError e1 = true →
      construct "gemini" = .error e2 → isMissingApiKeyError e2 = true →
      formatLocalSetupError el ≠ "" →
      createEmbeddingProviderAuto localModelPath resolveUserPath isFileAt construct
          formatLocalSetupError
        = (.error (String.intercalate "\n\n" [e1, e2, formatLocalSetupError el]),
           ["local", "openai", "gemini"])) := by
  refine ⟨?_, ?_, ?_, ?_, ?_, ?_, ?_⟩
  · intro hres
    by_cases hl : canAutoSelectLocal localModelPath resolveUserPath isFileAt = true
    · refine ⟨hl, ?_⟩
      unfold createEmbeddingProviderAuto at hres
      rw [if_pos hl] at hres
      cases hc : construct "local" with
      | ok u => rfl
      | error e =>
        rw [hc] at hres
        exact absurd hres (autoRemainder_ne_local construct _ _)
    · exfalso
      unfold createEmbeddingProviderAuto at hres
      rw [if_neg hl] at hres
      exact absurd hres (autoRemainder_ne_local construct _ _)
  · intro hl
    unfold canAutoSelectLocal at hl
    cases hraw : localModelPath with
    | none => rw [hraw] at hl; simp at hl
    | some raw =>
      rw [hraw] at hl
      replace hl : (if trimString raw = "" then false
          else if (startsWithCI (trimString raw) "hf:" || startsWithCI (trimString raw) "http:"
              || startsWithCI (trimString raw) "https:") = true then false
          else isFileAt (resolveUserPath (trimString raw))) = true := hl
      by_cases h0 : trimString raw = ""
      · rw [if_pos h0] at hl; cases hl
      · rw [if_neg h0] at hl
        by_cases hpre : (startsWithCI (trimString raw) "hf:"
            || startsWithCI (trimString raw) "http:"
            || startsWithCI (trimString raw) "https:") = true
        · rw [if_pos hpre] at hl; cases hl
        · rw [if_neg hpre] at hl
          simp only [Bool.or_eq_true, not_or, Bool.not_eq_true] at hpre
          exact ⟨raw, rfl, h0, hpre.1.1, hpre.1.2, hpre.2, hl⟩
  · intro hl ho
    unfold createEmbeddingProviderAuto
    rw [if_neg (by simp [hl])]
    unfold autoRemainder
    rw [ho]
    rfl
  · intro hl e1 ho h1
    unfold createEmbeddingProviderAuto
    rw [if_neg (by simp [hl])]
    unfold autoRemainder
    rw [ho]
    simp [h1]
  · intro hl e1 ho h1 hg
    unfold createEmbeddingProviderAuto
    rw [if_neg (by simp [hl])]
    unfold autoRemainder
    rw [ho]
    simp only [h1, Bool.not_true, Bool.false_eq_true, if_false]
    rw [hg]
    rfl
  · intro hl e1 e2 ho h1 hg h2
    have he1 := isMissingApiKeyError_ne_empty e1 h1
    have he2 := isMissingApiKeyError_ne_empty e2 h2
    unfold createEmbeddingProviderAuto
    rw [if_neg (by simp [hl])]
    unfold autoRemainder
    rw [ho]
    simp only [h1, Bool.not_true, Bool.false_eq_true, if_false]
    rw [hg]
    simp only [h2, Bool.not_true, Bool.false_eq_true, if_false]
    have hlist : ([e1, e2] ++ (match (none : Option String) with
        | some l => [l] | none => [])) = [e1, e2] := by simp
    have hfilter : List.filter (fun s => s != "") [e1, e2] = [e1, e2] :=
      List.filter_eq_self.mpr (by
        intro a ha
        rcases List.mem_cons.mp ha with rfl | ha2
        · simpa using he1
        · rcases List.mem_cons.mp ha2 with rfl | h3
          · simpa using he2
          · cases h3)
    rw [hlist, hfilter]
    simp
  · intro hl el e1 e2 hcl ho h1 hg h2 hne
    have he1 := isMissingApiKeyError_ne_empty e1 h1
    have he2 := isMissingApiKeyError_ne_empty e2 h2
    unfold createEmbeddingProviderAuto
    rw [if_pos hl, hcl]
    unfold autoRemainder
    rw [ho]
    simp only [h1, Bool.not_true, Bool.false_eq_true, if_false]
    rw [hg]
    simp only [h2, Bool.not_true, Bool.false_eq_true, if_false]
    have hlist : ([e1, e2] ++ (match (some (formatLocalSetupError el) : Option String) with
        | some l => [l] | none => [])) = [e1, e2, formatLocalSetupError el] := by simp
    have hfilter : List.filter (fun s => s != "") [e1, e2, formatLocalSetupError el]
        = [e1, e2, formatLocalSetupError el] :=
      List.filter_eq_self.mpr (by
        intro a ha
        rcases List.mem_cons.mp ha with rfl | ha2
        · simpa using he1
        · rcases List.mem_cons.mp ha2 with rfl | ha3
          · simpa using he2
          · rcases List.mem_cons.mp ha3 with rfl | h4
            · simpa using hne
            · cases h4)
    rw [hlist, hfilter]
    simp

/-- Witness for C8: with no local model path, an OpenAI constructor failing
with a missing-API-key message and a Gemini constructor that succeeds, the
auto factory returns Gemini with attempts ["openai", "gemini"]. -/
theorem createEmbeddingProviderAuto_spec_witness :
    createEmbeddingProviderAuto none (fun s => s) (fun _ => false)
        (fun s => if s = "openai"
          then .error "No API key found for provider openai" else .ok ())
        (fun _ => "")
      = (.ok "gemini", ["openai", "gemini"]) :=
  (createEmbeddingProviderAuto_spec none (fun s => s) (fun _ => false)
      (fun s => if s = "openai"
        then .error "No API key found for provider openai" else .ok ())
      (fun _ => "")).2.2.2.2.1
    (by rfl) "No API key found for provider openai" (by rfl) (by decide) (by rfl)
